import Mathlib

/-!
# OpenGR registration metrics (`src/gr/utils/registrationMetrics.h`)

A shallow embedding of the three Largest-Common-Pointset scorers
`LCPMetric`, `LCPMetricReduce` and `WeightedLCPMetric`.

Conventions of the embedding

* `Scalar` (a C++ floating type in the source) is the field of rationals:
  the arithmetic of the scorers is taken exact.  The rounded product
  `terminate_value * number_of_points` decides where the sequential loop
  breaks, so statements about the place of the `break` are made for every
  value of `terminate_int_value` (`LCPMetric.scanWith`); `terminateIntValue`
  is the value exact arithmetic gives.
* `size_t` is 64 bits wide and `unsigned int` / `int` are 32 bits wide; every
  unsigned operation of the source that can wrap is written with its modulus,
  and the `int` addition of the reduce lambda is taken to wrap as well.
  Statements that depend on the value of the `unsigned int` counter are made
  for targets of fewer than `2^32` points, where the counter cannot wrap.
* `gr::KdTree` lives in `gr/accelerators/kdtree.h`; the scorers only call
  `doQueryRestrictedClosestIndex`, so the index is a parameter of that
  function type.
* `std::sqrt` is a parameter of the weighted scorer.
* `std::transform_reduce` is the left-to-right reduction in `LCPMetricReduce`;
  `ReduceTree` describes every other grouping and order of the operands.
* The `for` loops walk the target in index order; the embedding recurses on
  the remaining points and carries the loop index `i`.  Besides the
  accumulator, the loop functions report how many points were queried and
  whether the loop was left through `break`.
-/

namespace gr
namespace Utils

/-! ## Data model -/

/-- Scalar type of the metrics. -/
abbrev Scalar := ℚ

/-- Modulus of `unsigned int` (the value type of `std::atomic_uint`). -/
abbrev UINT_MOD : Nat := 4294967296

/-- Modulus of `size_t`. -/
abbrev SIZE_MOD : Nat := 18446744073709551616

/-- Position of a point, `pos()` in the source. -/
structure Point where
  x : Scalar
  y : Scalar
  z : Scalar
deriving DecidableEq

/-- The 4x4 matrix `mat`, addressed by row and column. -/
abbrev Mat4 := Fin 4 → Fin 4 → Scalar

/-- The identity matrix. -/
def Mat4.identity : Mat4 := fun r c => if r = c then 1 else 0

/-- Embeds `(mat * p.pos().homogeneous()).template head<3>()`: the first three
rows of `mat` applied to `(x, y, z, 1)`. -/
def transformPoint (mat : Mat4) (p : Point) : Point :=
  { x := mat 0 0 * p.x + mat 0 1 * p.y + mat 0 2 * p.z + mat 0 3 * 1
    y := mat 1 0 * p.x + mat 1 1 * p.y + mat 1 2 * p.z + mat 1 3 * 1
    z := mat 2 0 * p.x + mat 2 1 * p.y + mat 2 2 * p.z + mat 2 3 * 1 }

/-- Index type of the kd-tree. -/
abbrev Index := Int

/-- The value `gr::KdTree<Scalar>::invalidIndex()`. -/
def invalidIndex : Index := -1

/-- The `RangeQuery` record filled in before every query. -/
structure RangeQuery where
  queryPoint : Point
  sqdist : Scalar

/-- The capability of `gr::KdTree<Scalar>` the metrics use:
`doQueryRestrictedClosestIndex`, from a query to the pair
(index of the match or `invalidIndex`, squared distance of the match). -/
abbrev KdTree := RangeQuery → Index × Scalar

/-- Squared euclidean distance between two positions. -/
def sqDist (a b : Point) : Scalar :=
  (a.x - b.x) * (a.x - b.x) + (a.y - b.y) * (a.y - b.y) + (a.z - b.z) * (a.z - b.z)

/-- One step of the linear search of `restrictedClosest`: `cur` is the pair
(closest index so far, closest squared distance so far). -/
def restrictedClosestStep (q : RangeQuery) (cur : Index × Scalar) (i : Nat) (p : Point) :
    Index × Scalar :=
  if sqDist q.queryPoint p ≤ cur.2 then ((i : Int), sqDist q.queryPoint p) else cur

/-- Linear search over the reference points from position `i` on. -/
def restrictedClosestFrom (q : RangeQuery) : List Point → Nat → Index × Scalar → Index × Scalar
  | [], _, cur => cur
  | p :: rest, i, cur => restrictedClosestFrom q rest (i + 1) (restrictedClosestStep q cur i p)

/-- Modelled from the spec: the spatial index over the reference points
(`gr::KdTree`, declared in `gr/accelerators/kdtree.h`) is consumed through its
restricted closest-point query only: "point + squared-radius → best match index
and squared distance, or not found"; a result, if present, is the true nearest
reference point within the given squared radius.  This is that query by
exhaustive search; it starts from (`invalidIndex`, the query radius). -/
def restrictedClosest (pts : List Point) : KdTree :=
  fun q => restrictedClosestFrom q pts 0 (invalidIndex, q.sqdist)

/-! ## Sequential scorer -/

/-- Result of a scan: the accumulator `good_points`, the number of target
points queried, and whether the loop was left through `break`. -/
structure Scan (α : Type) where
  good_points : α
  scanned : Nat
  stopped : Bool
deriving DecidableEq

/-- Embeds `const size_t terminate_int_value = terminate_value * number_of_points;`
in exact arithmetic: the floor of the exact product (conversion of a
non-negative scalar to `size_t` truncates).  The floating-point product of the
source can round to another integer: in single precision `0.7 * 10` gives 7,
and the conversion of 67108870 gives 67108872. -/
def terminateIntValue (terminate_value : Scalar) (number_of_points : Nat) : Nat :=
  ⌊terminate_value * (number_of_points : Scalar)⌋₊ % SIZE_MOD

/-- The query of one loop iteration: does the transformed point have a match? -/
def found (ref : KdTree) (mat : Mat4) (sq_eps : Scalar) (p : Point) : Bool :=
  decide ((ref { queryPoint := transformPoint mat p, sqdist := sq_eps }).1 ≠ invalidIndex)

/-- The `for` loop of `LCPMetric::operator()`, from loop index `i` with counter
`good_points`, over the points `target[i], target[i+1], ...`. -/
def LCPMetric.loop (ref : KdTree) (mat : Mat4) (sq_eps : Scalar)
    (number_of_points terminate_int_value : Nat) :
    List Point → Nat → Nat → Scan Nat
  | [], i, good_points => { good_points := good_points, scanned := i, stopped := false }
  | p :: rest, i, good_points =>
    let good_points1 :=
      if found ref mat sq_eps p then (good_points + 1) % UINT_MOD else good_points
    if (number_of_points - i + good_points1) % SIZE_MOD < terminate_int_value then
      { good_points := good_points1, scanned := i + 1, stopped := true }
    else
      LCPMetric.loop ref mat sq_eps number_of_points terminate_int_value rest (i + 1) good_points1

/-- The scan of `LCPMetric::operator()` up to the `return`. -/
def LCPMetric.scan (epsilon_ : Scalar) (ref : KdTree) (target : List Point) (mat : Mat4)
    (terminate_value : Scalar) : Scan Nat :=
  LCPMetric.loop ref mat (epsilon_ * epsilon_) target.length
    (terminateIntValue terminate_value target.length) target 0 0

/-- Embeds `LCPMetric::operator()`. -/
def LCPMetric (epsilon_ : Scalar) (ref : KdTree) (target : List Point) (mat : Mat4)
    (terminate_value : Scalar) : Scalar :=
  ((LCPMetric.scan epsilon_ ref target mat terminate_value).good_points : Scalar)
    / (target.length : Scalar)

/-! ## Parallel-reduction scorer -/

/-- Half of `UINT_MOD`: the first value an `int` cannot hold. -/
abbrev INT_LIMIT : Nat := 2147483648

/-- Conversion of an `unsigned int` argument to the `int` parameter of the
reduce lambda (two-complement representation). -/
def toInt (a : Nat) : Int :=
  if a % UINT_MOD < INT_LIMIT then ((a % UINT_MOD : Nat) : Int)
  else ((a % UINT_MOD : Nat) : Int) - (UINT_MOD : Int)

/-- The `a + b` of the reduce lambda on `int`; a sum outside the `int` range
(undefined in C++) is taken to wrap around. -/
def intAdd (a b : Int) : Int :=
  (a + b + (INT_LIMIT : Int)) % (UINT_MOD : Int) - (INT_LIMIT : Int)

/-- Conversion of the `int` result of the reduce lambda back to `unsigned int`. -/
def toUInt (z : Int) : Nat := (z % (UINT_MOD : Int)).toNat

/-- The reduce lambda `[](int a, int b) { return a + b; }` as it acts on the
`uint` accumulator of `std::transform_reduce`. -/
def reduceOp (a b : Nat) : Nat := toUInt (intAdd (toInt a) (toInt b))

/-- The transform lambda: `uint(1)` when the transformed point has a match,
`uint(0)` otherwise. -/
def transformOp (ref : KdTree) (mat : Mat4) (sq_eps : Scalar) (p : Point) : Nat :=
  if found ref mat sq_eps p then 1 else 0

/-- Embeds `LCPMetricReduce::operator()`.  The flag is the build-time condition
`STD_TRANSFORM_REDUCE_AVAILABLE`; `std::transform_reduce` is taken as the
left-to-right reduction from `uint(0)`.  The transform-reduce branch is the
call with the reduce lambda before the transform lambda, the order
`std::transform_reduce` takes them in; the source (lines 98 to 107) passes the
transform lambda first, a call the library does not accept. -/
def LCPMetricReduce (STD_TRANSFORM_REDUCE_AVAILABLE : Bool) (epsilon_ : Scalar) (ref : KdTree)
    (target : List Point) (mat : Mat4) (terminate_value : Scalar) : Scalar :=
  if STD_TRANSFORM_REDUCE_AVAILABLE then
    (((target.map (transformOp ref mat (epsilon_ * epsilon_))).foldl reduceOp 0 : Nat) : Scalar)
      / (target.length : Scalar)
  else
    LCPMetric epsilon_ ref target mat terminate_value

/-! ## Weighted scorer -/

/-- The lambda `kernel`: `std::pow(std::pow(x,4) - Scalar(1), 2)`. -/
def kernel (x : Scalar) : Scalar := (x ^ 4 - 1) ^ 2

/-- The lambda `computeWeight`: `kernel( std::sqrt(sqx) / th )`, with `std::sqrt`
passed as `sqrtS`. -/
def computeWeight (sqrtS : Scalar → Scalar) (sqx th : Scalar) : Scalar :=
  kernel (sqrtS sqx / th)

/-- The accumulation of one iteration of the weighted loop.  `none` is the
failure of `assert (result.second <= query.sqdist)`, which is compiled in
when `NDEBUG` is not defined. -/
def WeightedLCPMetric.accumulate (NDEBUG : Bool) (sqrtS : Scalar → Scalar) (epsilon_ : Scalar)
    (query : RangeQuery) (result : Index × Scalar) (good_points : Scalar) : Option Scalar :=
  if result.1 ≠ invalidIndex then
    if NDEBUG = false ∧ ¬ (result.2 ≤ query.sqdist) then none
    else some (good_points + computeWeight sqrtS result.2 epsilon_)
  else some good_points

/-- The `for` loop of `WeightedLCPMetric::operator()`, from loop index `i` with
accumulator `good_points`, in exact arithmetic; the source accumulates and
tests in `Scalar`, with rounding. -/
def WeightedLCPMetric.loop (NDEBUG : Bool) (sqrtS : Scalar → Scalar) (ref : KdTree) (mat : Mat4)
    (epsilon_ sq_eps : Scalar) (number_of_points terminate_int_value : Nat) :
    List Point → Nat → Scalar → Option (Scan Scalar)
  | [], i, good_points => some { good_points := good_points, scanned := i, stopped := false }
  | p :: rest, i, good_points =>
    match WeightedLCPMetric.accumulate NDEBUG sqrtS epsilon_
        { queryPoint := transformPoint mat p, sqdist := sq_eps }
        (ref { queryPoint := transformPoint mat p, sqdist := sq_eps }) good_points with
    | none => none
    | some good_points1 =>
      if (((number_of_points - i) % SIZE_MOD : Nat) : Scalar) + good_points1
          < (terminate_int_value : Scalar) then
        some { good_points := good_points1, scanned := i + 1, stopped := true }
      else
        WeightedLCPMetric.loop NDEBUG sqrtS ref mat epsilon_ sq_eps number_of_points
          terminate_int_value rest (i + 1) good_points1

/-- The scan of `WeightedLCPMetric::operator()` up to the `return`. -/
def WeightedLCPMetric.scan (NDEBUG : Bool) (sqrtS : Scalar → Scalar) (epsilon_ : Scalar)
    (ref : KdTree) (target : List Point) (mat : Mat4) (terminate_value : Scalar) :
    Option (Scan Scalar) :=
  WeightedLCPMetric.loop NDEBUG sqrtS ref mat epsilon_ (epsilon_ * epsilon_) target.length
    (terminateIntValue terminate_value target.length) target 0 0

/-- Embeds `WeightedLCPMetric::operator()`; `none` when the assertion fails. -/
def WeightedLCPMetric (NDEBUG : Bool) (sqrtS : Scalar → Scalar) (epsilon_ : Scalar)
    (ref : KdTree) (target : List Point) (mat : Mat4) (terminate_value : Scalar) :
    Option Scalar :=
  (WeightedLCPMetric.scan NDEBUG sqrtS epsilon_ ref target mat terminate_value).map
    (fun s => s.good_points / (target.length : Scalar))

/-! ## Specification vocabulary -/

/-- Number of points of `l` whose transformed position gets a found answer from
the index for squared radius `sq_eps`. -/
def countFound (ref : KdTree) (mat : Mat4) (sq_eps : Scalar) (l : List Point) : Nat :=
  l.countP (found ref mat sq_eps)

/-- Number of matches among the target points `0..i`. -/
def goodAfter (ref : KdTree) (mat : Mat4) (sq_eps : Scalar) (target : List Point) (i : Nat) :
    Nat :=
  countFound ref mat sq_eps (target.take (i + 1))

/-- The scan left its loop through `break` right after the point of index `i`. -/
def StopsAfter (s : Scan Nat) (i : Nat) : Prop :=
  s.stopped = true ∧ s.scanned = i + 1

/-- The pruning test as the specification words it (section 4.1, step 4):
`numberOfPoints - (i+1) + goodCount < terminateValue * numberOfPoints`. -/
def SpecPrunes (n : Nat) (terminate_value : Scalar) (good : Nat → Nat) (i : Nat) : Prop :=
  ((n : Scalar) - ((i : Scalar) + 1) + (good i : Scalar)) < terminate_value * (n : Scalar)

/-- The index reports a match exactly when some reference point lies within the
squared radius of the query. -/
def FoundIffWithin (ref : KdTree) (pts : List Point) : Prop :=
  ∀ q : RangeQuery,
    (ref q).1 ≠ invalidIndex ↔ ∃ p ∈ pts, sqDist q.queryPoint p ≤ q.sqdist

/-- A reported match carries the squared distance of the nearest reference point. -/
def ReturnsNearest (ref : KdTree) (pts : List Point) : Prop :=
  ∀ q : RangeQuery, (ref q).1 ≠ invalidIndex →
    (∃ p ∈ pts, (ref q).2 = sqDist q.queryPoint p) ∧
      ∀ p ∈ pts, (ref q).2 ≤ sqDist q.queryPoint p

/-- On the queries of one scan, a reported match lies within the query radius
(the condition of the `assert`). -/
def WithinRadiusOn (ref : KdTree) (mat : Mat4) (sq_eps : Scalar) (target : List Point) : Prop :=
  ∀ p ∈ target,
    (ref { queryPoint := transformPoint mat p, sqdist := sq_eps }).1 ≠ invalidIndex →
      (ref { queryPoint := transformPoint mat p, sqdist := sq_eps }).2 ≤ sq_eps

/-- On the queries of one scan, `sqrtS` returns the exact non-negative square
root of every matched squared distance. -/
def SqrtExactOn (sqrtS : Scalar → Scalar) (ref : KdTree) (mat : Mat4) (sq_eps : Scalar)
    (target : List Point) : Prop :=
  ∀ p ∈ target,
    (ref { queryPoint := transformPoint mat p, sqdist := sq_eps }).1 ≠ invalidIndex →
      0 ≤ sqrtS (ref { queryPoint := transformPoint mat p, sqdist := sq_eps }).2 ∧
        sqrtS (ref { queryPoint := transformPoint mat p, sqdist := sq_eps }).2
            * sqrtS (ref { queryPoint := transformPoint mat p, sqdist := sq_eps }).2
          = (ref { queryPoint := transformPoint mat p, sqdist := sq_eps }).2

/-- Every transformed target point lies farther than the radius from every
reference point (squared distance above `sq_eps`). -/
def BeyondRadius (pts : List Point) (mat : Mat4) (sq_eps : Scalar) (target : List Point) :
    Prop :=
  ∀ p ∈ target, ∀ q ∈ pts, sq_eps < sqDist (transformPoint mat p) q

/-- What one target point adds to the accumulator of the weighted scorer:
`computeWeight` of the matched squared distance, or 0 without a match. -/
def matchWeight (sqrtS : Scalar → Scalar) (epsilon_ : Scalar) (ref : KdTree) (mat : Mat4)
    (sq_eps : Scalar) (p : Point) : Scalar :=
  if (ref { queryPoint := transformPoint mat p, sqdist := sq_eps }).1 ≠ invalidIndex then
    computeWeight sqrtS (ref { queryPoint := transformPoint mat p, sqdist := sq_eps }).2 epsilon_
  else 0

/-- Sum of the weights of the matched points of `l`. -/
def weightSum (sqrtS : Scalar → Scalar) (epsilon_ : Scalar) (ref : KdTree) (mat : Mat4)
    (sq_eps : Scalar) (l : List Point) : Scalar :=
  (l.map (matchWeight sqrtS epsilon_ ref mat sq_eps)).sum

/-- The evaluations of the pruning test `number_of_points - i + good_points <
terminate_int_value` made by the loop of `LCPMetric::operator()`: for each
evaluation, the loop index `i` and the value of `good_points` the test reads. -/
def LCPMetric.checks (ref : KdTree) (mat : Mat4) (sq_eps : Scalar)
    (number_of_points terminate_int_value : Nat) :
    List Point → Nat → Nat → List (Nat × Nat)
  | [], _, _ => []
  | p :: rest, i, good_points =>
    let good_points1 :=
      if found ref mat sq_eps p then (good_points + 1) % UINT_MOD else good_points
    (i, good_points1) ::
      (if (number_of_points - i + good_points1) % SIZE_MOD < terminate_int_value then []
       else LCPMetric.checks ref mat sq_eps number_of_points terminate_int_value rest (i + 1)
        good_points1)

/-- One way of evaluating the generalized sum of `std::transform_reduce`: a
grouping of the operands (the initial value and the transformed elements, in
any order) into applications of the reduce operation. -/
inductive ReduceTree where
  | leaf (v : Nat) : ReduceTree
  | node (l r : ReduceTree) : ReduceTree

/-- The operands of a grouping, from left to right. -/
def ReduceTree.leaves : ReduceTree → List Nat
  | .leaf v => [v]
  | .node l r => l.leaves ++ r.leaves

/-- The value of a grouping under the reduce lambda. -/
def ReduceTree.value : ReduceTree → Nat
  | .leaf v => v
  | .node l r => reduceOp l.value r.value

/-- On the queries of one scan, `sqrtS` maps every matched squared distance
into `[0, epsilon_]`, as a square root does for a match within the radius. -/
def SqrtWithinOn (sqrtS : Scalar → Scalar) (epsilon_ : Scalar) (ref : KdTree) (mat : Mat4)
    (sq_eps : Scalar) (target : List Point) : Prop :=
  ∀ p ∈ target,
    (ref { queryPoint := transformPoint mat p, sqdist := sq_eps }).1 ≠ invalidIndex →
      0 ≤ sqrtS (ref { queryPoint := transformPoint mat p, sqdist := sq_eps }).2 ∧
        sqrtS (ref { queryPoint := transformPoint mat p, sqdist := sq_eps }).2 ≤ epsilon_

/-- The scan of `LCPMetric::operator()` for a given value of
`terminate_int_value`, whatever value the conversion of
`terminate_value * number_of_points` to `size_t` produced. -/
def LCPMetric.scanWith (terminate_int_value : Nat) (epsilon_ : Scalar) (ref : KdTree)
    (target : List Point) (mat : Mat4) : Scan Nat :=
  LCPMetric.loop ref mat (epsilon_ * epsilon_) target.length terminate_int_value target 0 0

/-! ## Fixtures -/

/-- The four reference points of the concrete scenario. -/
def fixturePoints : List Point :=
  [⟨0, 0, 0⟩, ⟨1, 0, 0⟩, ⟨0, 1, 0⟩, ⟨0, 0, 1⟩]

/-- The target of the scenario with point 0 moved to (10,10,10). -/
def fixturePerturbed : List Point :=
  [⟨10, 10, 10⟩, ⟨1, 0, 0⟩, ⟨0, 1, 0⟩, ⟨0, 0, 1⟩]

/-- Four target points far away from every reference point. -/
def fixtureFar : List Point :=
  [⟨10, 10, 10⟩, ⟨11, 10, 10⟩, ⟨10, 11, 10⟩, ⟨10, 10, 11⟩]

/-- A target at squared distances 0 and 4/25 from the nearest reference point. -/
def fixtureNear : List Point :=
  [⟨0, 0, 0⟩, ⟨3 / 5, 0, 0⟩]

/-- A square root that is exact on the squared distances 0 and 4/25. -/
def fixtureSqrt (d : Scalar) : Scalar :=
  if d = 4 / 25 then 2 / 5 else 0

/-- The index of the scenario: exhaustive search over `fixturePoints`. -/
def fixtureIndex : KdTree := restrictedClosest fixturePoints

/-- The perturbed target in another order. -/
def fixtureShuffled : List Point :=
  [⟨0, 0, 1⟩, ⟨10, 10, 10⟩, ⟨0, 1, 0⟩, ⟨1, 0, 0⟩]

/-- A balanced grouping of the initial value 0 and the four 0/1 values of the
perturbed target, in the order 1, 0, 0, 1, 1. -/
def fixtureTree : ReduceTree :=
  .node (.node (.leaf 1) (.leaf 0)) (.node (.leaf 0) (.node (.leaf 1) (.leaf 1)))

/-- Two far target points followed by two reference points. -/
def fixtureLate : List Point :=
  [⟨10, 10, 10⟩, ⟨11, 10, 10⟩, ⟨0, 1, 0⟩, ⟨0, 0, 1⟩]

/-- A target point at squared distance 1/2 (not a rational square) from its
nearest reference points. -/
def fixtureHalf : List Point :=
  [⟨1 / 2, 1 / 2, 0⟩]

/-- A rounded square root: 7/10 for the squared distance 1/2. -/
def fixtureSqrtRounded (d : Scalar) : Scalar :=
  if d = 1 / 2 then 7 / 10 else 0

/-- Ten target points: five far points followed by five reference points. -/
def fixtureTen : List Point :=
  [⟨10, 10, 10⟩, ⟨11, 10, 10⟩, ⟨10, 11, 10⟩, ⟨10, 10, 11⟩, ⟨11, 11, 10⟩,
    ⟨0, 0, 0⟩, ⟨1, 0, 0⟩, ⟨0, 1, 0⟩, ⟨0, 0, 1⟩, ⟨0, 0, 0⟩]

/-- A target of `2^32` copies of the reference point (0,0,0). -/
def fixtureHuge : List Point :=
  List.replicate 4294967296 ⟨0, 0, 0⟩

/-- A target of `2^32` points: the reference point (0,0,0), then `2^32 - 1`
copies of (1/2,0,0), which lies at squared distance 1/4 from the reference. -/
def fixtureHugeNear : List Point :=
  ⟨0, 0, 0⟩ :: List.replicate 4294967295 ⟨1 / 2, 0, 0⟩

/-- A target of `2^33` points: `2^32 - 1` copies of the reference point
(0,0,0), two far points, (0,0,0) once more, then `2^32 - 2` far points. -/
def fixtureWrap : List Point :=
  List.replicate 4294967295 ⟨0, 0, 0⟩ ++
    (⟨10, 10, 10⟩ :: ⟨11, 10, 10⟩ :: ⟨0, 0, 0⟩ :: List.replicate 4294967294 ⟨10, 10, 10⟩)

/-- A point cloud of 67108870 copies of the point (0,0,0).  In single precision
the conversion of 67108870 gives 67108872. -/
def fixtureCloud : List Point :=
  List.replicate 67108870 ⟨0, 0, 0⟩

/-! ## Lemmas on the transform and on the exhaustive-search index -/

theorem transformPoint_identity (p : Point) : transformPoint Mat4.identity p = p := by
  cases p
  simp [transformPoint, Mat4.identity]

theorem sqDist_self (p : Point) : sqDist p p = 0 := by
  simp [sqDist]

theorem sqDist_nonneg (a b : Point) : 0 ≤ sqDist a b := by
  unfold sqDist
  nlinarith [mul_self_nonneg (a.x - b.x), mul_self_nonneg (a.y - b.y),
    mul_self_nonneg (a.z - b.z)]

/-- What the exhaustive search returns, from any starting pair. -/
theorem restrictedClosestFrom_spec (q : RangeQuery) :
    ∀ (pts : List Point) (i : Nat) (cur : Index × Scalar),
      ((restrictedClosestFrom q pts i cur).1 ≠ invalidIndex ↔
          (cur.1 ≠ invalidIndex ∨ ∃ p ∈ pts, sqDist q.queryPoint p ≤ cur.2)) ∧
        (restrictedClosestFrom q pts i cur).2 ≤ cur.2 ∧
        (∀ p ∈ pts, (restrictedClosestFrom q pts i cur).2 ≤ sqDist q.queryPoint p) ∧
        (restrictedClosestFrom q pts i cur = cur ∨
          ∃ p ∈ pts, (restrictedClosestFrom q pts i cur).2 = sqDist q.queryPoint p) := by
  intro pts
  induction pts with
  | nil =>
    intro i cur
    simp [restrictedClosestFrom]
  | cons p rest ih =>
    intro i cur
    simp only [restrictedClosestFrom]
    obtain ⟨h1, h2, h3, h4⟩ := ih (i + 1) (restrictedClosestStep q cur i p)
    by_cases hd : sqDist q.queryPoint p ≤ cur.2
    · have hstep : restrictedClosestStep q cur i p = ((i : Int), sqDist q.queryPoint p) := by
        simp [restrictedClosestStep, hd]
      rw [hstep] at h1 h2 h3 h4 ⊢
      have hi : ((i : Int)) ≠ invalidIndex := by
        simp only [invalidIndex]
        omega
      refine ⟨?_, le_trans h2 hd, ?_, ?_⟩
      · constructor
        · intro _
          exact Or.inr ⟨p, List.mem_cons_self _ _, hd⟩
        · intro _
          exact h1.mpr (Or.inl hi)
      · intro p2 hp2
        rcases List.mem_cons.mp hp2 with h | h
        · rw [h]; exact h2
        · exact h3 p2 h
      · right
        rcases h4 with h | ⟨p2, hp2, h⟩
        · exact ⟨p, List.mem_cons_self _ _, by rw [h]⟩
        · exact ⟨p2, List.mem_cons_of_mem _ hp2, h⟩
    · have hstep : restrictedClosestStep q cur i p = cur := by
        simp [restrictedClosestStep, hd]
      rw [hstep] at h1 h2 h3 h4 ⊢
      refine ⟨?_, h2, ?_, ?_⟩
      · rw [h1]
        constructor
        · rintro (h | ⟨p2, hp2, h⟩)
          · exact Or.inl h
          · exact Or.inr ⟨p2, List.mem_cons_of_mem _ hp2, h⟩
        · rintro (h | ⟨p2, hp2, h⟩)
          · exact Or.inl h
          · rcases List.mem_cons.mp hp2 with h5 | h5
            · rw [h5] at h
              exact absurd h hd
            · exact Or.inr ⟨p2, h5, h⟩
      · intro p2 hp2
        rcases List.mem_cons.mp hp2 with h | h
        · rw [h]
          exact le_trans h2 (le_of_lt (not_le.mp hd))
        · exact h3 p2 h
      · rcases h4 with h | ⟨p2, hp2, h⟩
        · exact Or.inl h
        · exact Or.inr ⟨p2, List.mem_cons_of_mem _ hp2, h⟩

/-- The exhaustive search reports a match exactly when a reference point lies
within the squared radius. -/
theorem restrictedClosest_foundIffWithin (pts : List Point) :
    FoundIffWithin (restrictedClosest pts) pts := by
  intro q
  have h := (restrictedClosestFrom_spec q pts 0 (invalidIndex, q.sqdist)).1
  simpa [restrictedClosest] using h

/-- The exhaustive search returns the squared distance of the nearest point. -/
theorem restrictedClosest_returnsNearest (pts : List Point) :
    ReturnsNearest (restrictedClosest pts) pts := by
  intro q hq
  obtain ⟨_, _, h3, h4⟩ := restrictedClosestFrom_spec q pts 0 (invalidIndex, q.sqdist)
  refine ⟨?_, h3⟩
  rcases h4 with h | h
  · exact absurd (by rw [restrictedClosest] at hq; rw [h] at hq; exact hq) (by simp)
  · exact h

theorem found_eq_true_iff (ref : KdTree) (mat : Mat4) (sq_eps : Scalar) (p : Point) :
    found ref mat sq_eps p = true ↔
      (ref { queryPoint := transformPoint mat p, sqdist := sq_eps }).1 ≠ invalidIndex := by
  simp [found]

/-- The answers of the fixture index under the identity transform. -/
theorem found_fixtureIndex (sq_eps : Scalar) (p : Point) :
    found fixtureIndex Mat4.identity sq_eps p = true ↔
      (sqDist p ⟨0, 0, 0⟩ ≤ sq_eps ∨ sqDist p ⟨1, 0, 0⟩ ≤ sq_eps ∨
        sqDist p ⟨0, 1, 0⟩ ≤ sq_eps ∨ sqDist p ⟨0, 0, 1⟩ ≤ sq_eps) := by
  rw [found_eq_true_iff, fixtureIndex, restrictedClosest_foundIffWithin fixturePoints,
    transformPoint_identity]
  simp [fixturePoints]

/-! ## Lemmas on the sequential loop -/

theorem countFound_cons (ref : KdTree) (mat : Mat4) (sq_eps : Scalar) (p : Point)
    (l : List Point) :
    countFound ref mat sq_eps (p :: l)
      = countFound ref mat sq_eps l + (if found ref mat sq_eps p then 1 else 0) := by
  simp [countFound, List.countP_cons]

theorem countFound_le_length (ref : KdTree) (mat : Mat4) (sq_eps : Scalar) (l : List Point) :
    countFound ref mat sq_eps l ≤ l.length := List.countP_le_length _

theorem LCPMetric.loop_spec (ref : KdTree) (mat : Mat4) (sq_eps : Scalar) (n T : Nat)
    (hn : n < UINT_MOD) :
    ∀ (rest : List Point) (i g : Nat), i + rest.length = n → g ≤ i →
      g ≤ (LCPMetric.loop ref mat sq_eps n T rest i g).good_points ∧
      (LCPMetric.loop ref mat sq_eps n T rest i g).good_points
        ≤ g + countFound ref mat sq_eps rest ∧
      (LCPMetric.loop ref mat sq_eps n T rest i g).good_points
        ≤ (LCPMetric.loop ref mat sq_eps n T rest i g).scanned ∧
      i ≤ (LCPMetric.loop ref mat sq_eps n T rest i g).scanned ∧
      (LCPMetric.loop ref mat sq_eps n T rest i g).scanned ≤ n ∧
      ((LCPMetric.loop ref mat sq_eps n T rest i g).stopped = false →
        (LCPMetric.loop ref mat sq_eps n T rest i g).good_points
            = g + countFound ref mat sq_eps rest ∧
          (LCPMetric.loop ref mat sq_eps n T rest i g).scanned = n) ∧
      ((LCPMetric.loop ref mat sq_eps n T rest i g).stopped = true ↔
        rest ≠ [] ∧ g + countFound ref mat sq_eps rest + 1 < T) := by
  intro rest
  induction rest with
  | nil =>
    intro i g hi hg
    simp only [List.length_nil] at hi
    simp [LCPMetric.loop, countFound]
    omega
  | cons p rest ih =>
    intro i g hi hg
    simp only [List.length_cons] at hi
    have hle := countFound_le_length ref mat sq_eps rest
    have hnil : rest = [] → countFound ref mat sq_eps rest = 0 ∧ rest.length = 0 := by
      intro h; subst h; exact ⟨rfl, rfl⟩
    rw [countFound_cons]
    simp only [LCPMetric.loop, UINT_MOD, SIZE_MOD] at hn ⊢
    by_cases hf : found ref mat sq_eps p = true
    · simp only [hf, if_true]
      have hg1 : (g + 1) % 4294967296 = g + 1 := by omega
      have hs : (n - i + (g + 1)) % 18446744073709551616 = n - i + (g + 1) := by omega
      rw [hg1, hs]
      by_cases hchk : n - i + (g + 1) < T
      · simp only [hchk, if_true]
        refine ⟨by omega, by omega, by omega, by omega, by omega, by simp, ?_⟩
        simp only [true_iff]
        exact ⟨List.cons_ne_nil _ _, by omega⟩
      · simp only [hchk, if_false]
        obtain ⟨h1, h2, h3, h4, h5, h6, h7⟩ := ih (i + 1) (g + 1) (by omega) (by omega)
        refine ⟨by omega, by omega, h3, by omega, h5, ?_, ?_⟩
        · intro hst
          have := h6 hst
          omega
        · rw [h7]
          constructor
          · rintro ⟨_, h⟩
            exact ⟨List.cons_ne_nil _ _, by omega⟩
          · rintro ⟨_, h⟩
            refine ⟨?_, by omega⟩
            intro hr
            have := hnil hr
            omega
    · simp only [hf, if_false, Bool.false_eq_true]
      have hs : (n - i + g) % 18446744073709551616 = n - i + g := by omega
      rw [hs]
      by_cases hchk : n - i + g < T
      · simp only [hchk, if_true]
        refine ⟨by omega, by omega, by omega, by omega, by omega, by simp, ?_⟩
        simp only [true_iff]
        exact ⟨List.cons_ne_nil _ _, by omega⟩
      · simp only [hchk, if_false]
        obtain ⟨h1, h2, h3, h4, h5, h6, h7⟩ := ih (i + 1) g (by omega) (by omega)
        refine ⟨by omega, by omega, h3, by omega, h5, ?_, ?_⟩
        · intro hst
          have := h6 hst
          omega
        · rw [h7]
          constructor
          · rintro ⟨_, h⟩
            exact ⟨List.cons_ne_nil _ _, by omega⟩
          · rintro ⟨_, h⟩
            refine ⟨?_, by omega⟩
            intro hr
            have := hnil hr
            omega

theorem countFound_append (ref : KdTree) (mat : Mat4) (sq_eps : Scalar) (l₁ l₂ : List Point) :
    countFound ref mat sq_eps (l₁ ++ l₂)
      = countFound ref mat sq_eps l₁ + countFound ref mat sq_eps l₂ := by
  simp [countFound, List.countP_append]

theorem goodAfter_length (ref : KdTree) (mat : Mat4) (sq_eps : Scalar) (pre rest : List Point)
    (p : Point) :
    goodAfter ref mat sq_eps (pre ++ p :: rest) pre.length
      = countFound ref mat sq_eps pre + (if found ref mat sq_eps p then 1 else 0) := by
  have h : pre ++ p :: rest = (pre ++ [p]) ++ rest := by simp
  have hl : pre.length + 1 = (pre ++ [p]).length := by simp
  rw [goodAfter, h, hl, List.take_left, countFound_append, countFound_cons]
  simp [countFound]

/-- Without any bound on the target size: the counter never exceeds the number
of points queried, which never exceeds the size of the target. -/
theorem LCPMetric.loop_range (ref : KdTree) (mat : Mat4) (sq_eps : Scalar) (n T : Nat) :
    ∀ (rest : List Point) (i g : Nat), g ≤ i →
      (LCPMetric.loop ref mat sq_eps n T rest i g).good_points
          ≤ (LCPMetric.loop ref mat sq_eps n T rest i g).scanned ∧
        (LCPMetric.loop ref mat sq_eps n T rest i g).scanned ≤ i + rest.length := by
  intro rest
  induction rest with
  | nil =>
    intro i g hg
    simpa [LCPMetric.loop] using hg
  | cons p rest ih =>
    intro i g hg
    simp only [LCPMetric.loop, List.length_cons]
    have hg1 : (if found ref mat sq_eps p = true then (g + 1) % UINT_MOD else g) ≤ i + 1 := by
      split_ifs
      · exact le_trans (Nat.mod_le _ _) (by omega)
      · omega
    split_ifs with h1 h2 h2
    · dsimp only
      exact ⟨le_trans (Nat.mod_le _ _) (by omega), by omega⟩
    · have := ih (i + 1) ((g + 1) % UINT_MOD) (by simpa [h1] using hg1)
      omega
    · dsimp only
      exact ⟨by omega, by omega⟩
    · have := ih (i + 1) g (by omega)
      omega

/-- Where the loop stops: right after the first index at which the pruning test
of the source holds. -/
theorem LCPMetric.loop_stopsAfter (ref : KdTree) (mat : Mat4) (sq_eps : Scalar)
    (target : List Point) (T : Nat) (hn : target.length < UINT_MOD) :
    ∀ (rest pre : List Point), pre ++ rest = target → ∀ k : Nat,
      (StopsAfter (LCPMetric.loop ref mat sq_eps target.length T rest pre.length
          (countFound ref mat sq_eps pre)) k ↔
        (pre.length ≤ k ∧ k < target.length ∧
          target.length - k + goodAfter ref mat sq_eps target k < T ∧
          ∀ j : Nat, pre.length ≤ j → j < k →
            ¬ (target.length - j + goodAfter ref mat sq_eps target j < T))) := by
  intro rest
  induction rest with
  | nil =>
    intro pre hpre k
    have hlen : pre.length = target.length := by rw [← hpre]; simp
    simp only [LCPMetric.loop, StopsAfter]
    constructor
    · rintro ⟨h, _⟩
      exact absurd h (by simp)
    · rintro ⟨h1, h2, _⟩
      omega
  | cons p rest ih =>
    intro pre hpre k
    have hlen : pre.length + (rest.length + 1) = target.length := by rw [← hpre]; simp
    have hcnt := countFound_le_length ref mat sq_eps pre
    have hga : goodAfter ref mat sq_eps target pre.length
        = countFound ref mat sq_eps pre + (if found ref mat sq_eps p then 1 else 0) := by
      rw [← hpre]; exact goodAfter_length ref mat sq_eps pre rest p
    have hih := ih (pre ++ [p]) (by simpa using hpre) k
    have hg1 : (if found ref mat sq_eps p = true
        then (countFound ref mat sq_eps pre + 1) % UINT_MOD else countFound ref mat sq_eps pre)
        = countFound ref mat sq_eps pre + (if found ref mat sq_eps p then 1 else 0) := by
      split_ifs
      · exact Nat.mod_eq_of_lt (by omega)
      · rfl
    have hcnt1 : countFound ref mat sq_eps (pre ++ [p])
        = countFound ref mat sq_eps pre + (if found ref mat sq_eps p then 1 else 0) := by
      rw [countFound_append, countFound_cons]; simp [countFound]
    have hs : (target.length - pre.length
        + (countFound ref mat sq_eps pre + (if found ref mat sq_eps p then 1 else 0))) % SIZE_MOD
        = target.length - pre.length
          + (countFound ref mat sq_eps pre + (if found ref mat sq_eps p then 1 else 0)) := by
      apply Nat.mod_eq_of_lt
      have : (if found ref mat sq_eps p then 1 else 0) ≤ 1 := by split_ifs <;> omega
      simp only [UINT_MOD, SIZE_MOD] at *
      omega
    rw [hcnt1, List.length_append, List.length_singleton] at hih
    simp only [LCPMetric.loop]
    rw [hg1, hs]
    by_cases hchk : target.length - pre.length
        + (countFound ref mat sq_eps pre + (if found ref mat sq_eps p then 1 else 0)) < T
    · simp only [hchk, if_true, StopsAfter, true_and]
      constructor
      · intro hk
        have hk2 : k = pre.length := by omega
        subst hk2
        refine ⟨le_refl _, by omega, by rw [hga]; exact hchk, ?_⟩
        intro j h1 h2
        omega
      · rintro ⟨h1, h2, h3, h4⟩
        by_contra hne
        have hlt : pre.length < k := by omega
        exact h4 pre.length (le_refl _) hlt (by rw [hga]; exact hchk)
    · simp only [hchk, if_false]
      rw [hih]
      constructor
      · rintro ⟨h1, h2, h3, h4⟩
        refine ⟨by omega, h2, h3, ?_⟩
        intro j hj1 hj2
        by_cases hj : j = pre.length
        · subst hj
          rw [hga]; exact hchk
        · exact h4 j (by omega) hj2
      · rintro ⟨h1, h2, h3, h4⟩
        have hk : k ≠ pre.length := by
          intro hk
          subst hk
          rw [hga] at h3
          exact hchk h3
        refine ⟨by omega, h2, h3, ?_⟩
        intro j hj1 hj2
        exact h4 j (by omega) hj2

/-- Once fewer than `terminate_int_value - 2` matches remain possible, the loop
stops before it has queried every point. -/
theorem LCPMetric.loop_early (ref : KdTree) (mat : Mat4) (sq_eps : Scalar) (n T : Nat)
    (hn : n < UINT_MOD) :
    ∀ (rest : List Point) (i g : Nat), i + rest.length = n → g ≤ i →
      T ≤ n - i + 1 + g → g + countFound ref mat sq_eps rest + 2 < T →
      (LCPMetric.loop ref mat sq_eps n T rest i g).scanned < n := by
  intro rest
  induction rest with
  | nil =>
    intro i g hi hg hT hm
    simp only [List.length_nil] at hi
    simp only [countFound, List.countP_nil] at hm
    omega
  | cons p rest ih =>
    intro i g hi hg hT hm
    simp only [List.length_cons] at hi
    have hle := countFound_le_length ref mat sq_eps rest
    rw [countFound_cons] at hm
    simp only [LCPMetric.loop, UINT_MOD, SIZE_MOD] at hn ⊢
    by_cases hf : found ref mat sq_eps p = true
    · simp only [hf, if_true] at hm ⊢
      have hg1 : (g + 1) % 4294967296 = g + 1 := by omega
      have hs : (n - i + (g + 1)) % 18446744073709551616 = n - i + (g + 1) := by omega
      rw [hg1, hs]
      by_cases hchk : n - i + (g + 1) < T
      · simp only [hchk, if_true]
        omega
      · simp only [hchk, if_false]
        exact ih (i + 1) (g + 1) (by omega) (by omega) (by omega) (by omega)
    · simp only [hf, if_false, Bool.false_eq_true] at hm ⊢
      have hs : (n - i + g) % 18446744073709551616 = n - i + g := by omega
      rw [hs]
      by_cases hchk : n - i + g < T
      · simp only [hchk, if_true]
        omega
      · simp only [hchk, if_false]
        exact ih (i + 1) g (by omega) (by omega) (by omega) (by omega)

/-- The facts of `LCPMetric.loop_spec` for a whole scan. -/
theorem LCPMetric.scan_spec (epsilon_ : Scalar) (ref : KdTree) (target : List Point)
    (mat : Mat4) (terminate_value : Scalar) (hlt : target.length < UINT_MOD) :
    (LCPMetric.scan epsilon_ ref target mat terminate_value).good_points
        ≤ countFound ref mat (epsilon_ * epsilon_) target ∧
      ((LCPMetric.scan epsilon_ ref target mat terminate_value).stopped = false →
        (LCPMetric.scan epsilon_ ref target mat terminate_value).good_points
            = countFound ref mat (epsilon_ * epsilon_) target ∧
          (LCPMetric.scan epsilon_ ref target mat terminate_value).scanned = target.length) ∧
      ((LCPMetric.scan epsilon_ ref target mat terminate_value).stopped = true ↔
        target ≠ [] ∧ countFound ref mat (epsilon_ * epsilon_) target + 1
          < terminateIntValue terminate_value target.length) := by
  obtain ⟨_, h2, _, _, _, h6, h7⟩ :=
    LCPMetric.loop_spec ref mat (epsilon_ * epsilon_) target.length
      (terminateIntValue terminate_value target.length) hlt target 0 0 (by simp) (le_refl _)
  simp only [Nat.zero_add] at h2 h6 h7
  exact ⟨h2, h6, h7⟩

theorem terminateIntValue_zero (n : Nat) : terminateIntValue 0 n = 0 := by
  simp [terminateIntValue]

theorem terminateIntValue_le_floor (t : Scalar) (n : Nat) :
    terminateIntValue t n ≤ ⌊t * (n : Scalar)⌋₊ :=
  Nat.mod_le _ _

theorem terminateIntValue_cast_le (t : Scalar) (n : Nat) (ht : 0 ≤ t) :
    (terminateIntValue t n : Scalar) ≤ t * (n : Scalar) := by
  have h1 : ((terminateIntValue t n : Nat) : Scalar) ≤ ((⌊t * (n : Scalar)⌋₊ : Nat) : Scalar) := by
    exact_mod_cast terminateIntValue_le_floor t n
  have h2 : ((⌊t * (n : Scalar)⌋₊ : Nat) : Scalar) ≤ t * (n : Scalar) :=
    Nat.floor_le (mul_nonneg ht (Nat.cast_nonneg n))
  exact le_trans h1 h2

theorem terminateIntValue_le (t : Scalar) (n : Nat) (ht : t ≤ 1) :
    terminateIntValue t n ≤ n := by
  refine le_trans (terminateIntValue_le_floor t n) ?_
  have h : t * (n : Scalar) ≤ (n : Scalar) := by
    have hn : (0 : Scalar) ≤ (n : Scalar) := Nat.cast_nonneg n
    nlinarith
  calc ⌊t * (n : Scalar)⌋₊ ≤ ⌊(n : Scalar)⌋₊ := Nat.floor_mono h
    _ = n := Nat.floor_natCast n

theorem terminateIntValue_eq_floor (t : Scalar) (n : Nat) (ht : t ≤ 1) (hn : n < SIZE_MOD) :
    terminateIntValue t n = ⌊t * (n : Scalar)⌋₊ := by
  have h : t * (n : Scalar) ≤ (n : Scalar) := by
    have hn : (0 : Scalar) ≤ (n : Scalar) := Nat.cast_nonneg n
    nlinarith
  have h2 : ⌊t * (n : Scalar)⌋₊ ≤ n :=
    calc ⌊t * (n : Scalar)⌋₊ ≤ ⌊(n : Scalar)⌋₊ := Nat.floor_mono h
      _ = n := Nat.floor_natCast n
  exact Nat.mod_eq_of_lt (lt_of_le_of_lt h2 hn)

/-- With `terminate_int_value = 0` the loop never breaks; the counter is the
number of matches modulo `UINT_MOD`. -/
theorem LCPMetric.loop_zero (ref : KdTree) (mat : Mat4) (sq_eps : Scalar) (n : Nat) :
    ∀ (rest : List Point) (i g : Nat), g < UINT_MOD →
      LCPMetric.loop ref mat sq_eps n 0 rest i g
        = { good_points := (g + countFound ref mat sq_eps rest) % UINT_MOD
            scanned := i + rest.length
            stopped := false } := by
  intro rest
  induction rest with
  | nil =>
    intro i g hg
    simp [LCPMetric.loop, countFound, Nat.mod_eq_of_lt hg]
  | cons p rest ih =>
    intro i g hg
    rw [countFound_cons]
    simp only [LCPMetric.loop, Nat.not_lt_zero, if_false, List.length_cons]
    by_cases hf : found ref mat sq_eps p = true
    · simp only [hf, if_true]
      rw [ih (i + 1) ((g + 1) % UINT_MOD) (Nat.mod_lt _ (by decide))]
      have : ((g + 1) % UINT_MOD + countFound ref mat sq_eps rest) % UINT_MOD
          = (g + (countFound ref mat sq_eps rest + 1)) % UINT_MOD := by
        simp only [UINT_MOD]; omega
      rw [this]
      congr 1
      omega
    · simp only [hf, if_false, Bool.false_eq_true]
      rw [ih (i + 1) g hg]
      simp only [Nat.add_zero]
      congr 1
      omega

theorem reduceOp_eq (a b : Nat) : reduceOp a b = (a + b) % UINT_MOD := by
  simp only [reduceOp, toUInt, intAdd, toInt, UINT_MOD, INT_LIMIT]
  split_ifs <;> omega

theorem foldl_reduceOp (ref : KdTree) (mat : Mat4) (sq_eps : Scalar) :
    ∀ (l : List Point) (a : Nat), a < UINT_MOD →
      (l.map (transformOp ref mat sq_eps)).foldl reduceOp a
        = (a + countFound ref mat sq_eps l) % UINT_MOD := by
  intro l
  induction l with
  | nil =>
    intro a ha
    simp [countFound, Nat.mod_eq_of_lt ha]
  | cons p l ih =>
    intro a ha
    rw [countFound_cons]
    simp only [List.map_cons, List.foldl_cons, reduceOp_eq]
    rw [ih _ (Nat.mod_lt _ (by decide))]
    simp only [transformOp, UINT_MOD]
    split_ifs <;> omega

theorem LCPMetric.scan_zero (epsilon_ : Scalar) (ref : KdTree) (target : List Point)
    (mat : Mat4) :
    LCPMetric.scan epsilon_ ref target mat 0
      = { good_points := countFound ref mat (epsilon_ * epsilon_) target % UINT_MOD
          scanned := target.length
          stopped := false } := by
  simp only [LCPMetric.scan, terminateIntValue_zero]
  rw [LCPMetric.loop_zero _ _ _ _ _ _ _ (by decide)]
  simp

theorem LCPMetric_zero_eq (epsilon_ : Scalar) (ref : KdTree) (target : List Point)
    (mat : Mat4) (hlt : target.length < UINT_MOD) :
    LCPMetric epsilon_ ref target mat 0
      = (countFound ref mat (epsilon_ * epsilon_) target : Scalar) / (target.length : Scalar) := by
  have hm : countFound ref mat (epsilon_ * epsilon_) target < UINT_MOD :=
    lt_of_le_of_lt (countFound_le_length _ _ _ _) hlt
  simp only [LCPMetric, LCPMetric.scan_zero, Nat.mod_eq_of_lt hm]

theorem LCPMetricReduce_true_eq (epsilon_ : Scalar) (ref : KdTree) (target : List Point)
    (mat : Mat4) (terminate_value : Scalar) :
    LCPMetricReduce true epsilon_ ref target mat terminate_value
      = LCPMetric epsilon_ ref target mat 0 := by
  simp only [LCPMetricReduce, if_true, LCPMetric, LCPMetric.scan_zero]
  rw [foldl_reduceOp _ _ _ _ _ (by decide)]
  simp

/-! ## Lemmas on two scans and on the weighted loop -/

/-- A scan whose queries match whenever those of another scan match ends with a
counter that is at least as large. -/
theorem LCPMetric.loop_mono (ref : KdTree) (mat : Mat4) (r₁ r₂ : Scalar) (n T : Nat)
    (hn : n < UINT_MOD)
    (hfound : ∀ p : Point, found ref mat r₁ p = true → found ref mat r₂ p = true) :
    ∀ (rest : List Point) (i g₁ g₂ : Nat), i + rest.length = n → g₁ ≤ g₂ → g₂ ≤ i →
      (LCPMetric.loop ref mat r₁ n T rest i g₁).good_points
        ≤ (LCPMetric.loop ref mat r₂ n T rest i g₂).good_points := by
  intro rest
  induction rest with
  | nil =>
    intro i g₁ g₂ _ h12 _
    simpa [LCPMetric.loop] using h12
  | cons p rest ih =>
    intro i g₁ g₂ hi h12 hg
    simp only [List.length_cons] at hi
    have hgrow : ∀ g : Nat, g ≤ i + 1 →
        g ≤ (LCPMetric.loop ref mat r₂ n T rest (i + 1) g).good_points :=
      fun g hg1 => (LCPMetric.loop_spec ref mat r₂ n T hn rest (i + 1) g (by omega) hg1).1
    simp only [LCPMetric.loop, UINT_MOD, SIZE_MOD] at hn ⊢
    have hm₁ : (g₁ + 1) % 4294967296 = g₁ + 1 := by omega
    have hm₂ : (g₂ + 1) % 4294967296 = g₂ + 1 := by omega
    rw [hm₁, hm₂]
    by_cases hf₁ : found ref mat r₁ p = true
    · have hf₂ := hfound p hf₁
      simp only [hf₁, hf₂, if_true]
      have hs₁ : (n - i + (g₁ + 1)) % 18446744073709551616 = n - i + (g₁ + 1) := by omega
      have hs₂ : (n - i + (g₂ + 1)) % 18446744073709551616 = n - i + (g₂ + 1) := by omega
      rw [hs₁, hs₂]
      by_cases hc₁ : n - i + (g₁ + 1) < T
      · simp only [hc₁, if_true]
        by_cases hc₂ : n - i + (g₂ + 1) < T
        · simp only [hc₂, if_true]
          omega
        · simp only [hc₂, if_false]
          have := hgrow (g₂ + 1) (by omega)
          omega
      · have hc₂ : ¬ (n - i + (g₂ + 1) < T) := by omega
        simp only [hc₁, hc₂, if_false]
        exact ih (i + 1) (g₁ + 1) (g₂ + 1) (by omega) (by omega) (by omega)
    · simp only [hf₁, if_false, Bool.false_eq_true]
      have hs₁ : (n - i + g₁) % 18446744073709551616 = n - i + g₁ := by omega
      rw [hs₁]
      by_cases hf₂ : found ref mat r₂ p = true
      · simp only [hf₂, if_true]
        have hs₂ : (n - i + (g₂ + 1)) % 18446744073709551616 = n - i + (g₂ + 1) := by omega
        rw [hs₂]
        by_cases hc₁ : n - i + g₁ < T
        · simp only [hc₁, if_true]
          by_cases hc₂ : n - i + (g₂ + 1) < T
          · simp only [hc₂, if_true]
            omega
          · simp only [hc₂, if_false]
            have := hgrow (g₂ + 1) (by omega)
            omega
        · have hc₂ : ¬ (n - i + (g₂ + 1) < T) := by omega
          simp only [hc₁, hc₂, if_false]
          exact ih (i + 1) g₁ (g₂ + 1) (by omega) (by omega) (by omega)
      · simp only [hf₂, if_false, Bool.false_eq_true]
        have hs₂ : (n - i + g₂) % 18446744073709551616 = n - i + g₂ := by omega
        rw [hs₂]
        by_cases hc₁ : n - i + g₁ < T
        · simp only [hc₁, if_true]
          by_cases hc₂ : n - i + g₂ < T
          · simp only [hc₂, if_true]
            omega
          · simp only [hc₂, if_false]
            have := hgrow g₂ (by omega)
            omega
        · have hc₂ : ¬ (n - i + g₂ < T) := by omega
          simp only [hc₁, hc₂, if_false]
          exact ih (i + 1) g₁ g₂ (by omega) (by omega) (by omega)

theorem kernel_zero : kernel 0 = 1 := by
  norm_num [kernel]

/-- The kernel maps [0,1] into [0,1]. -/
theorem kernel_range (x : Scalar) (h0 : 0 ≤ x) (h1 : x ≤ 1) :
    0 ≤ kernel x ∧ kernel x ≤ 1 := by
  have h4 : x ^ 4 ≤ 1 := pow_le_one₀ h0 h1
  have h4' : 0 ≤ x ^ 4 := pow_nonneg h0 4
  unfold kernel
  constructor
  · positivity
  · nlinarith

/-- The weight of a match within the support radius lies in [0,1]. -/
theorem computeWeight_range (sqrtS : Scalar → Scalar) (d th : Scalar) (hth : 0 < th)
    (hs0 : 0 ≤ sqrtS d) (hs : sqrtS d * sqrtS d = d) (hd : d ≤ th * th) :
    0 ≤ computeWeight sqrtS d th ∧ computeWeight sqrtS d th ≤ 1 := by
  have hle : sqrtS d ≤ th := by
    by_contra h
    have h' : th < sqrtS d := not_le.mp h
    nlinarith
  exact kernel_range _ (div_nonneg hs0 (le_of_lt hth)) ((div_le_one hth).mpr hle)

/-- The weighted loop under the conditions of the range claim: the assertion
holds at every match, the scan returns, and the accumulated weight lies between
0 and the number of points queried. -/
theorem WeightedLCPMetric.weighted_loop_range (NDEBUG : Bool) (sqrtS : Scalar → Scalar) (ref : KdTree)
    (mat : Mat4) (epsilon_ sq_eps : Scalar) (n T : Nat) :
    ∀ (rest : List Point) (i : Nat) (g : Scalar),
      (∀ p ∈ rest,
        (ref { queryPoint := transformPoint mat p, sqdist := sq_eps }).1 ≠ invalidIndex →
          (ref { queryPoint := transformPoint mat p, sqdist := sq_eps }).2 ≤ sq_eps ∧
            0 ≤ computeWeight sqrtS
              (ref { queryPoint := transformPoint mat p, sqdist := sq_eps }).2 epsilon_ ∧
            computeWeight sqrtS
              (ref { queryPoint := transformPoint mat p, sqdist := sq_eps }).2 epsilon_ ≤ 1) →
      0 ≤ g → g ≤ (i : Scalar) →
      ∃ s : Scan Scalar,
        WeightedLCPMetric.loop NDEBUG sqrtS ref mat epsilon_ sq_eps n T rest i g = some s ∧
          0 ≤ s.good_points ∧ s.good_points ≤ (s.scanned : Scalar) ∧
          s.scanned ≤ i + rest.length := by
  intro rest
  induction rest with
  | nil =>
    intro i g _ h0 hg
    exact ⟨_, rfl, h0, hg, by simp⟩
  | cons p rest ih =>
    intro i g hall h0 hg
    have hp := hall p (List.mem_cons_self _ _)
    have hrest : ∀ p' ∈ rest,
        (ref { queryPoint := transformPoint mat p', sqdist := sq_eps }).1 ≠ invalidIndex →
          (ref { queryPoint := transformPoint mat p', sqdist := sq_eps }).2 ≤ sq_eps ∧
            0 ≤ computeWeight sqrtS
              (ref { queryPoint := transformPoint mat p', sqdist := sq_eps }).2 epsilon_ ∧
            computeWeight sqrtS
              (ref { queryPoint := transformPoint mat p', sqdist := sq_eps }).2 epsilon_ ≤ 1 :=
      fun p' hp' => hall p' (List.mem_cons_of_mem _ hp')
    have hacc : ∃ g1 : Scalar,
        WeightedLCPMetric.accumulate NDEBUG sqrtS epsilon_
            { queryPoint := transformPoint mat p, sqdist := sq_eps }
            (ref { queryPoint := transformPoint mat p, sqdist := sq_eps }) g = some g1 ∧
          0 ≤ g1 ∧ g1 ≤ (i : Scalar) + 1 := by
      by_cases hf :
          (ref { queryPoint := transformPoint mat p, sqdist := sq_eps }).1 ≠ invalidIndex
      · obtain ⟨hd, hw0, hw1⟩ := hp hf
        refine ⟨g + computeWeight sqrtS
          (ref { queryPoint := transformPoint mat p, sqdist := sq_eps }).2 epsilon_, ?_,
          by linarith, by linarith⟩
        simp [WeightedLCPMetric.accumulate, hf, hd]
      · refine ⟨g, ?_, h0, by linarith⟩
        simp [WeightedLCPMetric.accumulate, hf]
    obtain ⟨g1, hg1, h01, hg1i⟩ := hacc
    simp only [WeightedLCPMetric.loop, hg1, List.length_cons]
    split_ifs with hchk
    · exact ⟨_, rfl, h01, by push_cast; exact hg1i, by simp⟩
    · obtain ⟨s, hs, hs0, hs1, hs2⟩ := ih (i + 1) g1 hrest h01 (by push_cast; exact hg1i)
      exact ⟨s, hs, hs0, hs1, by omega⟩

/-- The weighted loop when every remaining point matches with weight 1: no
`break`, and the accumulator ends at the number of points. -/
theorem WeightedLCPMetric.weighted_loop_all_one (NDEBUG : Bool) (sqrtS : Scalar → Scalar) (ref : KdTree)
    (mat : Mat4) (epsilon_ sq_eps : Scalar) (n T : Nat) (hn : n < SIZE_MOD) (hT : T ≤ n) :
    ∀ (rest : List Point) (i : Nat), i + rest.length = n →
      (∀ p ∈ rest,
        (ref { queryPoint := transformPoint mat p, sqdist := sq_eps }).1 ≠ invalidIndex ∧
          (ref { queryPoint := transformPoint mat p, sqdist := sq_eps }).2 ≤ sq_eps ∧
          computeWeight sqrtS
            (ref { queryPoint := transformPoint mat p, sqdist := sq_eps }).2 epsilon_ = 1) →
      WeightedLCPMetric.loop NDEBUG sqrtS ref mat epsilon_ sq_eps n T rest i (i : Scalar)
        = some { good_points := (n : Scalar), scanned := n, stopped := false } := by
  intro rest
  induction rest with
  | nil =>
    intro i hi _
    simp only [List.length_nil, Nat.add_zero] at hi
    simp [WeightedLCPMetric.loop, hi]
  | cons p rest ih =>
    intro i hi hall
    simp only [List.length_cons] at hi
    obtain ⟨hf, hd, hw⟩ := hall p (List.mem_cons_self _ _)
    have hacc : WeightedLCPMetric.accumulate NDEBUG sqrtS epsilon_
        { queryPoint := transformPoint mat p, sqdist := sq_eps }
        (ref { queryPoint := transformPoint mat p, sqdist := sq_eps }) (i : Scalar)
        = some ((i : Scalar) + 1) := by
      simp [WeightedLCPMetric.accumulate, hf, hd, hw]
    have hmod : (n - i) % SIZE_MOD = n - i := Nat.mod_eq_of_lt (by omega)
    have hchk : ¬ ((((n - i) % SIZE_MOD : Nat) : Scalar) + ((i : Scalar) + 1) < (T : Scalar)) := by
      rw [hmod, not_lt]
      have h1 : ((T : Nat) : Scalar) ≤ ((n - i + (i + 1) : Nat) : Scalar) := by
        exact_mod_cast (by omega : T ≤ n - i + (i + 1))
      push_cast at h1
      exact h1
    simp only [WeightedLCPMetric.loop, hacc, hchk, if_false]
    have h := ih (i + 1) (by omega) (fun p' hp' => hall p' (List.mem_cons_of_mem _ hp'))
    push_cast at h
    exact h

/-! ## Evaluation of the fixtures -/

theorem countFound_fixturePerturbed :
    countFound fixtureIndex Mat4.identity ((1 / 100) * (1 / 100)) fixturePerturbed = 3 := by
  norm_num [countFound, List.countP_cons, fixturePerturbed, found_fixtureIndex, sqDist]

theorem countFound_fixtureFar :
    countFound fixtureIndex Mat4.identity ((1 / 100) * (1 / 100)) fixtureFar = 0 := by
  norm_num [countFound, List.countP_cons, fixtureFar, found_fixtureIndex, sqDist]

theorem scan_fixturePerturbed_one :
    LCPMetric.scan (1 / 100) fixtureIndex fixturePerturbed Mat4.identity 1
      = { good_points := 3, scanned := 4, stopped := false } := by
  norm_num [LCPMetric.scan, LCPMetric.loop, terminateIntValue, fixturePerturbed,
    found_fixtureIndex, sqDist]

theorem scan_fixtureFar_one :
    LCPMetric.scan (1 / 100) fixtureIndex fixtureFar Mat4.identity 1
      = { good_points := 0, scanned := 2, stopped := true } := by
  norm_num [LCPMetric.scan, LCPMetric.loop, terminateIntValue, fixtureFar,
    found_fixtureIndex, sqDist]

theorem fixtureIndex_origin :
    fixtureIndex { queryPoint := ⟨0, 0, 0⟩, sqdist := 1 } = (0, 0) := by
  norm_num [fixtureIndex, restrictedClosest, restrictedClosestFrom, restrictedClosestStep,
    fixturePoints, sqDist]

theorem fixtureIndex_near :
    fixtureIndex { queryPoint := ⟨3 / 5, 0, 0⟩, sqdist := 1 } = (1, 4 / 25) := by
  norm_num [fixtureIndex, restrictedClosest, restrictedClosestFrom, restrictedClosestStep,
    fixturePoints, sqDist]

theorem withinRadiusOn_fixtureNear :
    WithinRadiusOn fixtureIndex Mat4.identity (1 * 1) fixtureNear := by
  intro p hp
  simp only [fixtureNear, List.mem_cons, List.mem_singleton, List.not_mem_nil, or_false] at hp
  rcases hp with rfl | rfl
  · rw [transformPoint_identity, mul_one, fixtureIndex_origin]
    norm_num
  · rw [transformPoint_identity, mul_one, fixtureIndex_near]
    norm_num

theorem sqrtExactOn_fixtureNear :
    SqrtExactOn fixtureSqrt fixtureIndex Mat4.identity (1 * 1) fixtureNear := by
  intro p hp
  simp only [fixtureNear, List.mem_cons, List.mem_singleton, List.not_mem_nil, or_false] at hp
  rcases hp with rfl | rfl
  · rw [transformPoint_identity, mul_one, fixtureIndex_origin]
    norm_num [fixtureSqrt]
  · rw [transformPoint_identity, mul_one, fixtureIndex_near]
    norm_num [fixtureSqrt]

/-! ## Claims -/

/-- C1, amended: with `terminate_value = 0` the sequential scorer never leaves its loop
through `break`, queries all `n` points, and returns exactly `m / n`, where `m`
is the number of target points with a found answer for squared radius
`epsilon^2` (targets of `1 ≤ n < 2^32` points, the range of the `unsigned int`
counter). -/
theorem LCPMetric_full_scan (epsilon_ : Scalar) (ref : KdTree) (target : List Point)
    (mat : Mat4) (_hne : 0 < target.length) (hlt : target.length < UINT_MOD) :
    (LCPMetric.scan epsilon_ ref target mat 0).stopped = false ∧
      (LCPMetric.scan epsilon_ ref target mat 0).scanned = target.length ∧
      LCPMetric epsilon_ ref target mat 0
        = (countFound ref mat (epsilon_ * epsilon_) target : Scalar) / (target.length : Scalar) := by
  have hm : countFound ref mat (epsilon_ * epsilon_) target < UINT_MOD :=
    lt_of_le_of_lt (countFound_le_length _ _ _ _) hlt
  simp only [LCPMetric, LCPMetric.scan_zero, Nat.mod_eq_of_lt hm, and_self]

/-- Witness of amended C1 on the concrete scenario: reference = the four fixture points,
target = the same with point 0 moved to (10,10,10), identity transform,
`epsilon = 0.01`; three of four points match and the score is 3/4. -/
theorem LCPMetric_full_scan_witness :
    0 < fixturePerturbed.length ∧ fixturePerturbed.length < UINT_MOD ∧
      countFound fixtureIndex Mat4.identity ((1 / 100) * (1 / 100)) fixturePerturbed = 3 ∧
      LCPMetric (1 / 100) fixtureIndex fixturePerturbed Mat4.identity 0 = 3 / 4 := by
  have hc := countFound_fixturePerturbed
  refine ⟨by decide, by decide, hc, ?_⟩
  rw [(LCPMetric_full_scan (1 / 100) fixtureIndex fixturePerturbed Mat4.identity
    (by decide) (by decide)).2.2, hc]
  norm_num [fixturePerturbed]

/-- The transform-reduce call as the author meant it (see `LCPMetricReduce`),
what C2 asks for: the parallel scorer returns, for every
`terminate_value`, the result of the sequential scorer called with
`terminate_value = 0`. -/
theorem LCPMetricReduce_eq_LCPMetric (epsilon_ : Scalar) (ref : KdTree) (target : List Point)
    (mat : Mat4) (terminate_value : Scalar) :
    LCPMetricReduce true epsilon_ ref target mat terminate_value
      = LCPMetric epsilon_ ref target mat 0 :=
  LCPMetricReduce_true_eq epsilon_ ref target mat terminate_value

/-- Pruning with the bound of exact arithmetic, `floor(terminate_value * n)`,
what C3 asks for.  If the loop is left through
the early-termination `break`, the full-scan score (the result with
`terminate_value = 0`) is strictly below `terminate_value`; and whenever the
full-scan score is at least `terminate_value`, the call scans every point and
returns exactly the full-scan score (targets of `1 ≤ n < 2^32` points). -/
theorem LCPMetric_pruning_sound (epsilon_ : Scalar) (ref : KdTree) (target : List Point)
    (mat : Mat4) (terminate_value : Scalar) (hne : 0 < target.length)
    (hlt : target.length < UINT_MOD) (ht0 : 0 ≤ terminate_value) (_ht1 : terminate_value ≤ 1) :
    ((LCPMetric.scan epsilon_ ref target mat terminate_value).stopped = true →
        LCPMetric epsilon_ ref target mat 0 < terminate_value) ∧
      (terminate_value ≤ LCPMetric epsilon_ ref target mat 0 →
        (LCPMetric.scan epsilon_ ref target mat terminate_value).stopped = false ∧
          (LCPMetric.scan epsilon_ ref target mat terminate_value).scanned = target.length ∧
          LCPMetric epsilon_ ref target mat terminate_value
            = LCPMetric epsilon_ ref target mat 0) := by
  obtain ⟨_, hfull, hstop⟩ := LCPMetric.scan_spec epsilon_ ref target mat terminate_value hlt
  have hn : (0 : Scalar) < (target.length : Scalar) := by exact_mod_cast hne
  have hsound : (LCPMetric.scan epsilon_ ref target mat terminate_value).stopped = true →
      LCPMetric epsilon_ ref target mat 0 < terminate_value := by
    intro hs
    have hm := (hstop.mp hs).2
    have hm2 : ((countFound ref mat (epsilon_ * epsilon_) target : Nat) : Scalar) + 1
        < (terminateIntValue terminate_value target.length : Scalar) := by exact_mod_cast hm
    have hT := terminateIntValue_cast_le terminate_value target.length ht0
    rw [LCPMetric_zero_eq _ _ _ _ hlt, div_lt_iff₀ hn]
    linarith
  refine ⟨hsound, ?_⟩
  intro hge
  have hns : (LCPMetric.scan epsilon_ ref target mat terminate_value).stopped = false := by
    cases h : (LCPMetric.scan epsilon_ ref target mat terminate_value).stopped
    · rfl
    · exact absurd (hsound h) (not_lt.mpr hge)
  obtain ⟨hg, hsc⟩ := hfull hns
  refine ⟨hns, hsc, ?_⟩
  rw [LCPMetric_zero_eq _ _ _ _ hlt, LCPMetric, hg]

/-- Instance of `LCPMetric_pruning_sound`: the perturbed scenario with `terminate_value = 3/4`, which the
full-scan score 3/4 reaches, so the call returns the full-scan score; and four
far target points with `terminate_value = 1`, where the scan breaks and the
full-scan score is below 1. -/
theorem LCPMetric_pruning_sound_witness :
    (0 < fixturePerturbed.length ∧ fixturePerturbed.length < UINT_MOD ∧
        (0 : Scalar) ≤ 3 / 4 ∧ (3 / 4 : Scalar) ≤ 1) ∧
      LCPMetric (1 / 100) fixtureIndex fixturePerturbed Mat4.identity (3 / 4)
        = LCPMetric (1 / 100) fixtureIndex fixturePerturbed Mat4.identity 0 ∧
      (LCPMetric.scan (1 / 100) fixtureIndex fixtureFar Mat4.identity 1).stopped = true ∧
      LCPMetric (1 / 100) fixtureIndex fixtureFar Mat4.identity 0 < 1 := by
  have h := LCPMetric_pruning_sound (1 / 100) fixtureIndex fixturePerturbed Mat4.identity (3 / 4)
    (by decide) (by decide) (by norm_num) (by norm_num)
  have hfar := LCPMetric_pruning_sound (1 / 100) fixtureIndex fixtureFar Mat4.identity 1
    (by decide) (by decide) (by norm_num) (by norm_num)
  have hstop : (LCPMetric.scan (1 / 100) fixtureIndex fixtureFar Mat4.identity 1).stopped
      = true := by
    rw [scan_fixtureFar_one]
  refine ⟨⟨by decide, by decide, by norm_num, by norm_num⟩, (h.2 ?_).2.2, hstop,
    hfar.1 hstop⟩
  rw [LCPMetric_zero_eq _ _ _ _ (by decide), countFound_fixturePerturbed]
  norm_num [fixturePerturbed]

/-- Counterexample to C5 as stated: on the perturbed scenario with
`terminate_value = 1` the full-scan score 3/4 is below `terminate_value`, yet
the scan never takes the `break` and queries all four points. -/
theorem LCPMetric_pruning_fires_counterexample :
    LCPMetric (1 / 100) fixtureIndex fixturePerturbed Mat4.identity 0 < 1 ∧
      (LCPMetric.scan (1 / 100) fixtureIndex fixturePerturbed Mat4.identity 1).stopped = false ∧
      (LCPMetric.scan (1 / 100) fixtureIndex fixturePerturbed Mat4.identity 1).scanned
        = fixturePerturbed.length := by
  refine ⟨?_, ?_, ?_⟩
  · rw [LCPMetric_zero_eq _ _ _ _ (by decide), countFound_fixturePerturbed]
    norm_num [fixturePerturbed]
  · rw [scan_fixturePerturbed_one]
  · rw [scan_fixturePerturbed_one]
    rfl

/-- Counterexample to C6 as stated: four far target points, `terminate_value = 1`.
The formula of the claim holds at index 0 (`4 - 1 + 0 < 1 * 4`), but the scan
does not stop after index 0; it stops after index 1. -/
theorem LCPMetric_pruning_formula_counterexample :
    SpecPrunes fixtureFar.length 1
        (goodAfter fixtureIndex Mat4.identity ((1 / 100) * (1 / 100)) fixtureFar) 0 ∧
      ¬ StopsAfter (LCPMetric.scan (1 / 100) fixtureIndex fixtureFar Mat4.identity 1) 0 ∧
      StopsAfter (LCPMetric.scan (1 / 100) fixtureIndex fixtureFar Mat4.identity 1) 1 := by
  have hs := scan_fixtureFar_one
  refine ⟨?_, ?_, ?_⟩
  · norm_num [SpecPrunes, goodAfter, countFound, List.countP_cons, fixtureFar,
      found_fixtureIndex, sqDist]
  · rw [hs]
    simp [StopsAfter]
  · rw [hs]
    simp [StopsAfter]

/-- C7: for every non-empty target and every `terminate_value` in [0,1] the
result of the sequential scorer lies in [0,1], and so does the result of the
parallel-reduction scorer in either build. -/
theorem unweighted_score_range (epsilon_ : Scalar) (ref : KdTree) (target : List Point)
    (mat : Mat4) (terminate_value : Scalar) (hne : 0 < target.length)
    (_ht0 : 0 ≤ terminate_value) (_ht1 : terminate_value ≤ 1) :
    (0 ≤ LCPMetric epsilon_ ref target mat terminate_value ∧
        LCPMetric epsilon_ ref target mat terminate_value ≤ 1) ∧
      ∀ available : Bool,
        0 ≤ LCPMetricReduce available epsilon_ ref target mat terminate_value ∧
          LCPMetricReduce available epsilon_ ref target mat terminate_value ≤ 1 := by
  have hn : (0 : Scalar) < (target.length : Scalar) := by exact_mod_cast hne
  have hseq : ∀ t : Scalar, 0 ≤ LCPMetric epsilon_ ref target mat t ∧
      LCPMetric epsilon_ ref target mat t ≤ 1 := by
    intro t
    obtain ⟨h1, h2⟩ := LCPMetric.loop_range ref mat (epsilon_ * epsilon_) target.length
      (terminateIntValue t target.length) target 0 0 (le_refl _)
    have hle : (LCPMetric.scan epsilon_ ref target mat t).good_points ≤ target.length := by
      simp only [LCPMetric.scan]
      omega
    have hc : ((LCPMetric.scan epsilon_ ref target mat t).good_points : Scalar)
        ≤ (target.length : Scalar) := by exact_mod_cast hle
    refine ⟨div_nonneg (Nat.cast_nonneg _) (Nat.cast_nonneg _), ?_⟩
    rw [LCPMetric, div_le_one hn]
    exact hc
  refine ⟨hseq terminate_value, ?_⟩
  intro available
  cases available
  · simpa [LCPMetricReduce] using hseq terminate_value
  · rw [LCPMetricReduce_true_eq]
    exact hseq 0

/-- Witness of C7: the perturbed scenario with `terminate_value = 1/2`. -/
theorem unweighted_score_range_witness :
    (0 < fixturePerturbed.length ∧ (0 : Scalar) ≤ 1 / 2 ∧ (1 / 2 : Scalar) ≤ 1) ∧
      ((0 ≤ LCPMetric (1 / 100) fixtureIndex fixturePerturbed Mat4.identity (1 / 2) ∧
          LCPMetric (1 / 100) fixtureIndex fixturePerturbed Mat4.identity (1 / 2) ≤ 1) ∧
        ∀ available : Bool,
          0 ≤ LCPMetricReduce available (1 / 100) fixtureIndex fixturePerturbed Mat4.identity
              (1 / 2) ∧
            LCPMetricReduce available (1 / 100) fixtureIndex fixturePerturbed Mat4.identity
              (1 / 2) ≤ 1) :=
  ⟨⟨by decide, by norm_num, by norm_num⟩,
    unweighted_score_range (1 / 100) fixtureIndex fixturePerturbed Mat4.identity (1 / 2)
      (by decide) (by norm_num) (by norm_num)⟩

/-- C9, amended: monotonicity in epsilon.  For an index that reports a match exactly when
some reference point lies within the squared radius, a target of
`1 ≤ n < 2^32` points, a fixed `terminate_value` in [0,1] and thresholds
`0 ≤ e₁ ≤ e₂`, the sequential score with `epsilon_ = e₁` is at most the score
with `epsilon_ = e₂`, also when either scan terminates early. -/
theorem LCPMetric_mono_epsilon (e₁ e₂ : Scalar) (ref : KdTree) (pts target : List Point)
    (mat : Mat4) (terminate_value : Scalar) (_hne : 0 < target.length)
    (hlt : target.length < UINT_MOD) (_ht0 : 0 ≤ terminate_value) (_ht1 : terminate_value ≤ 1)
    (he₁ : 0 ≤ e₁) (he : e₁ ≤ e₂) (hidx : FoundIffWithin ref pts) :
    LCPMetric e₁ ref target mat terminate_value ≤ LCPMetric e₂ ref target mat terminate_value := by
  have hsq : e₁ * e₁ ≤ e₂ * e₂ := mul_le_mul he he he₁ (le_trans he₁ he)
  have hfound : ∀ p : Point,
      found ref mat (e₁ * e₁) p = true → found ref mat (e₂ * e₂) p = true := by
    intro p hp
    rw [found_eq_true_iff] at hp ⊢
    obtain ⟨q, hq, hd⟩ := (hidx _).mp hp
    exact (hidx _).mpr ⟨q, hq, le_trans hd hsq⟩
  have h := LCPMetric.loop_mono ref mat (e₁ * e₁) (e₂ * e₂) target.length
    (terminateIntValue terminate_value target.length) hlt hfound target 0 0 0 (by simp)
    (le_refl _) (le_refl _)
  have hc : ((LCPMetric.scan e₁ ref target mat terminate_value).good_points : Scalar)
      ≤ ((LCPMetric.scan e₂ ref target mat terminate_value).good_points : Scalar) := by
    exact_mod_cast h
  exact div_le_div_of_nonneg_right hc (Nat.cast_nonneg _)

/-- Witness of amended C9: reference = the four fixture points, target = (0,0,0) and
(3/5,0,0), thresholds 1/100 and 1, `terminate_value = 1/2`. -/
theorem LCPMetric_mono_epsilon_witness :
    (0 < fixtureNear.length ∧ fixtureNear.length < UINT_MOD ∧
        (0 : Scalar) ≤ 1 / 2 ∧ (1 / 2 : Scalar) ≤ 1 ∧ (0 : Scalar) ≤ 1 / 100 ∧
        (1 / 100 : Scalar) ≤ 1 ∧ FoundIffWithin fixtureIndex fixturePoints) ∧
      LCPMetric (1 / 100) fixtureIndex fixtureNear Mat4.identity (1 / 2)
        ≤ LCPMetric 1 fixtureIndex fixtureNear Mat4.identity (1 / 2) :=
  ⟨⟨by decide, by decide, by norm_num, by norm_num, by norm_num, by norm_num,
      restrictedClosest_foundIffWithin fixturePoints⟩,
    LCPMetric_mono_epsilon (1 / 100) 1 fixtureIndex fixturePoints fixtureNear Mat4.identity
      (1 / 2) (by decide) (by decide) (by norm_num) (by norm_num) (by norm_num) (by norm_num)
      (restrictedClosest_foundIffWithin fixturePoints)⟩

/-- Identity transform on identical point sets in exact arithmetic, what C10
asks for.  For a point set `P` of
`1 ≤ n < 2^32` points used as the target and, behind an index that reports the
nearest reference point within the radius, as the reference, with
`epsilon > 0` and `terminate_value` in [0,1]: the sequential scorer returns
exactly 1, the parallel-reduction scorer returns exactly 1 in either build, and
the weighted scorer returns exactly 1 (`std::sqrt(0) = 0`, `kernel(0) = 1`). -/
theorem identity_identical_score_one (NDEBUG : Bool) (sqrtS : Scalar → Scalar)
    (epsilon_ : Scalar) (ref : KdTree) (P : List Point) (terminate_value : Scalar)
    (hne : 0 < P.length) (hlt : P.length < UINT_MOD) (heps : 0 < epsilon_)
    (_ht0 : 0 ≤ terminate_value) (ht1 : terminate_value ≤ 1)
    (hidx : FoundIffWithin ref P) (hnear : ReturnsNearest ref P) (hsqrt : sqrtS 0 = 0) :
    LCPMetric epsilon_ ref P Mat4.identity terminate_value = 1 ∧
      (∀ available : Bool,
        LCPMetricReduce available epsilon_ ref P Mat4.identity terminate_value = 1) ∧
      WeightedLCPMetric NDEBUG sqrtS epsilon_ ref P Mat4.identity terminate_value = some 1 := by
  have hn : (P.length : Scalar) ≠ 0 := by
    have : (0 : Scalar) < (P.length : Scalar) := by exact_mod_cast hne
    exact ne_of_gt this
  have hsq : (0 : Scalar) ≤ epsilon_ * epsilon_ := le_of_lt (mul_pos heps heps)
  have hf : ∀ p ∈ P,
      (ref { queryPoint := transformPoint Mat4.identity p,
             sqdist := epsilon_ * epsilon_ }).1 ≠ invalidIndex := by
    intro p hp
    refine (hidx _).mpr ⟨p, hp, ?_⟩
    simp only [transformPoint_identity, sqDist_self]
    exact hsq
  have hd : ∀ p ∈ P,
      (ref { queryPoint := transformPoint Mat4.identity p,
             sqdist := epsilon_ * epsilon_ }).2 = 0 := by
    intro p hp
    obtain ⟨⟨q, _, hq⟩, hmin⟩ := hnear _ (hf p hp)
    have h1 := hmin p hp
    simp only [transformPoint_identity, sqDist_self] at h1 hq ⊢
    exact le_antisymm h1 (by rw [hq]; exact sqDist_nonneg _ _)
  have hcount : countFound ref Mat4.identity (epsilon_ * epsilon_) P = P.length := by
    rw [countFound, List.countP_eq_length]
    intro p hp
    exact (found_eq_true_iff _ _ _ _).mpr (hf p hp)
  have hseq : ∀ t : Scalar, t ≤ 1 → LCPMetric epsilon_ ref P Mat4.identity t = 1 := by
    intro t ht
    obtain ⟨_, hfull, hstop⟩ := LCPMetric.scan_spec epsilon_ ref P Mat4.identity t hlt
    have hT := terminateIntValue_le t P.length ht
    have hns : (LCPMetric.scan epsilon_ ref P Mat4.identity t).stopped = false := by
      cases h : (LCPMetric.scan epsilon_ ref P Mat4.identity t).stopped
      · rfl
      · have := (hstop.mp h).2
        omega
    rw [LCPMetric, (hfull hns).1, hcount, div_self hn]
  refine ⟨hseq terminate_value ht1, ?_, ?_⟩
  · intro available
    cases available
    · simpa [LCPMetricReduce] using hseq terminate_value ht1
    · rw [LCPMetricReduce_true_eq]
      exact hseq 0 (by norm_num)
  · have hloop := WeightedLCPMetric.weighted_loop_all_one NDEBUG sqrtS ref Mat4.identity epsilon_
      (epsilon_ * epsilon_) P.length (terminateIntValue terminate_value P.length)
      (lt_trans hlt (by decide : UINT_MOD < SIZE_MOD))
      (terminateIntValue_le terminate_value P.length ht1) P 0 (by simp)
      (fun p hp => ⟨hf p hp, by rw [hd p hp]; exact hsq, by
        rw [hd p hp, computeWeight, hsqrt, zero_div, kernel_zero]⟩)
    simp only [Nat.cast_zero] at hloop
    simp only [WeightedLCPMetric, WeightedLCPMetric.scan, hloop, Option.map_some', div_self hn]

/-- Instance of `identity_identical_score_one` on the concrete scenario: `P` = the four fixture points,
`epsilon = 0.01`, `terminate_value = 1`, debug build. -/
theorem identity_identical_score_one_witness :
    (0 < fixturePoints.length ∧ fixturePoints.length < UINT_MOD ∧ (0 : Scalar) < 1 / 100 ∧
        (0 : Scalar) ≤ 1 ∧ (1 : Scalar) ≤ 1 ∧ FoundIffWithin fixtureIndex fixturePoints ∧
        ReturnsNearest fixtureIndex fixturePoints ∧ fixtureSqrt 0 = 0) ∧
      (LCPMetric (1 / 100) fixtureIndex fixturePoints Mat4.identity 1 = 1 ∧
        (∀ available : Bool,
          LCPMetricReduce available (1 / 100) fixtureIndex fixturePoints Mat4.identity 1 = 1) ∧
        WeightedLCPMetric false fixtureSqrt (1 / 100) fixtureIndex fixturePoints Mat4.identity 1
          = some 1) :=
  ⟨⟨by decide, by decide, by norm_num, by norm_num, by norm_num,
      restrictedClosest_foundIffWithin fixturePoints,
      restrictedClosest_returnsNearest fixturePoints, by norm_num [fixtureSqrt]⟩,
    identity_identical_score_one false fixtureSqrt (1 / 100) fixtureIndex fixturePoints 1
      (by decide) (by decide) (by norm_num) (by norm_num) (by norm_num)
      (restrictedClosest_foundIffWithin fixturePoints)
      (restrictedClosest_returnsNearest fixturePoints) (by norm_num [fixtureSqrt])⟩

/-! ## Lemmas on scans without a match -/

/-- Beyond the radius the index reports no match. -/
theorem found_eq_false_of_beyond (ref : KdTree) (pts : List Point) (mat : Mat4)
    (sq_eps : Scalar) (target : List Point) (hidx : FoundIffWithin ref pts)
    (hfar : BeyondRadius pts mat sq_eps target) :
    ∀ p ∈ target,
      ¬ (ref { queryPoint := transformPoint mat p, sqdist := sq_eps }).1 ≠ invalidIndex := by
  intro p hp hf
  obtain ⟨q, hq, hd⟩ := (hidx _).mp hf
  exact absurd hd (not_le.mpr (hfar p hp q hq))

theorem beyondRadius_fixtureFar :
    BeyondRadius fixturePoints Mat4.identity ((1 / 100) * (1 / 100)) fixtureFar := by
  intro p hp q hq
  simp only [fixtureFar, fixturePoints, List.mem_cons, List.mem_singleton, List.not_mem_nil,
    or_false] at hp hq
  rw [transformPoint_identity]
  rcases hp with rfl | rfl | rfl | rfl <;> rcases hq with rfl | rfl | rfl | rfl <;>
    norm_num [sqDist]

/-! ## Lemmas on the kernel -/

theorem kernel_one : kernel 1 = 0 := by
  norm_num [kernel]

/-- The kernel is positive below 1. -/
theorem kernel_pos (x : Scalar) (h0 : 0 ≤ x) (h1 : x < 1) : 0 < kernel x := by
  have h4 : x ^ 4 < 1 := pow_lt_one₀ h0 h1 (by norm_num)
  unfold kernel
  have hne : x ^ 4 - 1 ≠ 0 := by linarith
  positivity

/-- The kernel is strictly decreasing on [0,1]. -/
theorem kernel_strictAnti (x y : Scalar) (h0 : 0 ≤ x) (hxy : x < y) (h1 : y ≤ 1) :
    kernel y < kernel x := by
  have hx4 : x ^ 4 < y ^ 4 := pow_lt_pow_left₀ hxy h0 (by norm_num)
  have hy4 : y ^ 4 ≤ 1 := pow_le_one₀ (le_trans h0 (le_of_lt hxy)) h1
  unfold kernel
  nlinarith

/-! ## Lemmas on the full weighted scan -/

theorem kernel_nonneg (x : Scalar) : 0 ≤ kernel x := by
  unfold kernel
  positivity

theorem matchWeight_nonneg (sqrtS : Scalar → Scalar) (epsilon_ : Scalar) (ref : KdTree)
    (mat : Mat4) (sq_eps : Scalar) (p : Point) :
    0 ≤ matchWeight sqrtS epsilon_ ref mat sq_eps p := by
  unfold matchWeight
  split_ifs
  · exact kernel_nonneg _
  · exact le_refl _

theorem weightSum_cons (sqrtS : Scalar → Scalar) (epsilon_ : Scalar) (ref : KdTree)
    (mat : Mat4) (sq_eps : Scalar) (p : Point) (l : List Point) :
    weightSum sqrtS epsilon_ ref mat sq_eps (p :: l)
      = matchWeight sqrtS epsilon_ ref mat sq_eps p
        + weightSum sqrtS epsilon_ ref mat sq_eps l := by
  simp [weightSum]

theorem weightSum_nonneg (sqrtS : Scalar → Scalar) (epsilon_ : Scalar) (ref : KdTree)
    (mat : Mat4) (sq_eps : Scalar) (l : List Point) :
    0 ≤ weightSum sqrtS epsilon_ ref mat sq_eps l := by
  unfold weightSum
  apply List.sum_nonneg
  intro x hx
  obtain ⟨p, _, rfl⟩ := List.mem_map.mp hx
  exact matchWeight_nonneg _ _ _ _ _ _

/-- When the assertion cannot fail (it is compiled out, or the match lies
within the radius), one iteration adds `matchWeight` to the accumulator. -/
theorem WeightedLCPMetric.accumulate_eq (NDEBUG : Bool) (sqrtS : Scalar → Scalar)
    (epsilon_ : Scalar) (ref : KdTree) (mat : Mat4) (sq_eps : Scalar) (p : Point) (g : Scalar)
    (hassert : NDEBUG = true ∨
      ((ref { queryPoint := transformPoint mat p, sqdist := sq_eps }).1 ≠ invalidIndex →
        (ref { queryPoint := transformPoint mat p, sqdist := sq_eps }).2 ≤ sq_eps)) :
    WeightedLCPMetric.accumulate NDEBUG sqrtS epsilon_
        { queryPoint := transformPoint mat p, sqdist := sq_eps }
        (ref { queryPoint := transformPoint mat p, sqdist := sq_eps }) g
      = some (g + matchWeight sqrtS epsilon_ ref mat sq_eps p) := by
  unfold WeightedLCPMetric.accumulate matchWeight
  by_cases hf : (ref { queryPoint := transformPoint mat p, sqdist := sq_eps }).1 ≠ invalidIndex
  · rcases hassert with h | h
    · simp [hf, h]
    · simp [hf, h hf]
  · simp [hf]

/-- With `terminate_int_value = 0` the weighted loop never breaks: it returns
the sum of the weights over all remaining points. -/
theorem WeightedLCPMetric.weighted_loop_zero (NDEBUG : Bool) (sqrtS : Scalar → Scalar)
    (ref : KdTree) (mat : Mat4) (epsilon_ sq_eps : Scalar) (n : Nat) :
    ∀ (rest : List Point) (i : Nat) (g : Scalar), 0 ≤ g →
      (NDEBUG = true ∨ ∀ p ∈ rest,
        (ref { queryPoint := transformPoint mat p, sqdist := sq_eps }).1 ≠ invalidIndex →
          (ref { queryPoint := transformPoint mat p, sqdist := sq_eps }).2 ≤ sq_eps) →
      WeightedLCPMetric.loop NDEBUG sqrtS ref mat epsilon_ sq_eps n 0 rest i g
        = some { good_points := g + weightSum sqrtS epsilon_ ref mat sq_eps rest
                 scanned := i + rest.length
                 stopped := false } := by
  intro rest
  induction rest with
  | nil =>
    intro i g _ _
    simp [WeightedLCPMetric.loop, weightSum]
  | cons p rest ih =>
    intro i g hg hassert
    have hacc := WeightedLCPMetric.accumulate_eq NDEBUG sqrtS epsilon_ ref mat sq_eps p g
      (hassert.imp id (fun h => h p (List.mem_cons_self _ _)))
    have hw := matchWeight_nonneg sqrtS epsilon_ ref mat sq_eps p
    have hchk : ¬ ((((n - i) % SIZE_MOD : Nat) : Scalar)
        + (g + matchWeight sqrtS epsilon_ ref mat sq_eps p) < ((0 : Nat) : Scalar)) := by
      have h1 : (0 : Scalar) ≤ (((n - i) % SIZE_MOD : Nat) : Scalar) := Nat.cast_nonneg _
      rw [Nat.cast_zero, not_lt]
      linarith
    simp only [WeightedLCPMetric.loop, hacc, hchk, if_false]
    rw [ih (i + 1) _ (by linarith)
      (hassert.imp id (fun h p' hp' => h p' (List.mem_cons_of_mem _ hp'))), weightSum_cons]
    simp only [List.length_cons, Scan.mk.injEq, and_true, Option.some.injEq]
    exact ⟨by ring, by omega⟩

/-- With an exact square root the weight of a match at squared distance `d` is
`(d^2 / epsilon^4 - 1)^2`. -/
theorem computeWeight_closed_form (sqrtS : Scalar → Scalar) (d th : Scalar)
    (hs : sqrtS d * sqrtS d = d) :
    computeWeight sqrtS d th = (d ^ 2 / th ^ 4 - 1) ^ 2 := by
  have h4 : sqrtS d ^ 4 = d ^ 2 := by
    calc sqrtS d ^ 4 = (sqrtS d * sqrtS d) ^ 2 := by ring
      _ = d ^ 2 := by rw [hs]
  rw [computeWeight, kernel, div_pow, h4]

theorem matchWeight_fixtureNear_origin :
    matchWeight fixtureSqrt 1 fixtureIndex Mat4.identity (1 * 1) ⟨0, 0, 0⟩ = 1 := by
  rw [matchWeight, transformPoint_identity, mul_one, fixtureIndex_origin]
  norm_num [invalidIndex, computeWeight, kernel, fixtureSqrt]

theorem matchWeight_fixtureNear_near :
    matchWeight fixtureSqrt 1 fixtureIndex Mat4.identity (1 * 1) ⟨3 / 5, 0, 0⟩
      = 370881 / 390625 := by
  rw [matchWeight, transformPoint_identity, mul_one, fixtureIndex_near]
  norm_num [invalidIndex, computeWeight, kernel, fixtureSqrt]

theorem weightSum_fixtureNear :
    weightSum fixtureSqrt 1 fixtureIndex Mat4.identity (1 * 1) fixtureNear
      = 761506 / 390625 := by
  rw [fixtureNear, weightSum_cons, weightSum_cons, matchWeight_fixtureNear_origin,
    matchWeight_fixtureNear_near]
  norm_num [weightSum]

/-- The weighted scorer with `terminate_value = 0` returns the sum of the
weights divided by the number of points. -/
theorem WeightedLCPMetric_full_scan_aux (NDEBUG : Bool) (sqrtS : Scalar → Scalar)
    (epsilon_ : Scalar) (ref : KdTree) (target : List Point) (mat : Mat4)
    (hassert : NDEBUG = true ∨ WithinRadiusOn ref mat (epsilon_ * epsilon_) target) :
    WeightedLCPMetric NDEBUG sqrtS epsilon_ ref target mat 0
      = some (weightSum sqrtS epsilon_ ref mat (epsilon_ * epsilon_) target
          / (target.length : Scalar)) := by
  have h := WeightedLCPMetric.weighted_loop_zero NDEBUG sqrtS ref mat epsilon_
    (epsilon_ * epsilon_) target.length target 0 0 (le_refl _) hassert
  simp only [zero_add] at h
  simp only [WeightedLCPMetric, WeightedLCPMetric.scan, terminateIntValue_zero, h,
    Option.map_some']

/-! ## Lemmas on the generalized sum -/

theorem sum_map_transformOp (ref : KdTree) (mat : Mat4) (sq_eps : Scalar) (l : List Point) :
    (l.map (transformOp ref mat sq_eps)).sum = countFound ref mat sq_eps l := by
  induction l with
  | nil => rfl
  | cons p l ih =>
    rw [List.map_cons, List.sum_cons, ih, countFound_cons, transformOp]
    omega

/-- Every grouping of operands below `UINT_MOD` evaluates to their sum modulo
`UINT_MOD`. -/
theorem ReduceTree.value_eq_sum (t : ReduceTree) :
    (∀ v ∈ t.leaves, v < UINT_MOD) → t.value = t.leaves.sum % UINT_MOD := by
  induction t with
  | leaf v =>
    intro h
    have hv := h v (by simp [ReduceTree.leaves])
    simp [ReduceTree.value, ReduceTree.leaves, Nat.mod_eq_of_lt hv]
  | node l r ihl ihr =>
    intro h
    have hl := ihl (fun v hv => h v (by simp [ReduceTree.leaves, hv]))
    have hr := ihr (fun v hv => h v (by simp [ReduceTree.leaves, hv]))
    simp only [ReduceTree.value, ReduceTree.leaves, List.sum_append, reduceOp_eq, hl, hr]
    exact (Nat.add_mod _ _ _).symm

theorem transformOp_lt (ref : KdTree) (mat : Mat4) (sq_eps : Scalar) (p : Point) :
    transformOp ref mat sq_eps p < UINT_MOD := by
  unfold transformOp
  split_ifs <;> decide

/-- The transform-reduce build returns the match count modulo `UINT_MOD` over `n`. -/
theorem LCPMetricReduce_true_count (epsilon_ : Scalar) (ref : KdTree) (target : List Point)
    (mat : Mat4) (terminate_value : Scalar) :
    LCPMetricReduce true epsilon_ ref target mat terminate_value
      = ((countFound ref mat (epsilon_ * epsilon_) target % UINT_MOD : Nat) : Scalar)
        / (target.length : Scalar) := by
  rw [LCPMetricReduce_true_eq, LCPMetric, LCPMetric.scan_zero]

theorem map_transformOp_fixturePerturbed :
    fixturePerturbed.map (transformOp fixtureIndex Mat4.identity ((1 / 100) * (1 / 100)))
      = [0, 1, 1, 1] := by
  norm_num [fixturePerturbed, transformOp, found_fixtureIndex, sqDist]

theorem fixturePerturbed_perm_fixtureShuffled : fixturePerturbed.Perm fixtureShuffled := by
  unfold fixturePerturbed fixtureShuffled
  decide

/-! ## Lemmas on the result of an early termination -/

/-- The counter at loop exit counts the matches among the points queried. -/
theorem LCPMetric.loop_prefix (ref : KdTree) (mat : Mat4) (sq_eps : Scalar) (n T : Nat)
    (hn : n < UINT_MOD) :
    ∀ (rest : List Point) (i g : Nat), i + rest.length = n → g ≤ i →
      (LCPMetric.loop ref mat sq_eps n T rest i g).good_points
        = g + countFound ref mat sq_eps
            (rest.take ((LCPMetric.loop ref mat sq_eps n T rest i g).scanned - i)) := by
  intro rest
  induction rest with
  | nil =>
    intro i g _ _
    simp [LCPMetric.loop, countFound]
  | cons p rest ih =>
    intro i g hi hg
    simp only [List.length_cons] at hi
    obtain ⟨d, hd1, hd2, hd3⟩ : ∃ d : Nat,
        (if found ref mat sq_eps p = true then (g + 1) % UINT_MOD else g) = g + d ∧ d ≤ 1 ∧
          ∀ l : List Point, countFound ref mat sq_eps (p :: l)
            = countFound ref mat sq_eps l + d := by
      by_cases hf : found ref mat sq_eps p = true
      · exact ⟨1, by simp only [hf, if_true]; exact Nat.mod_eq_of_lt (by omega), le_refl _,
          fun l => by rw [countFound_cons]; simp [hf]⟩
      · exact ⟨0, by simp only [hf, if_false]; rfl, by omega,
          fun l => by rw [countFound_cons]; simp [hf]⟩
    simp only [LCPMetric.loop]
    rw [hd1]
    by_cases hchk : (n - i + (g + d)) % SIZE_MOD < T
    · simp only [hchk, if_true]
      have h1 : i + 1 - i = 1 := by omega
      rw [h1, List.take_succ_cons, List.take_zero, hd3]
      simp [countFound]
    · simp only [hchk, if_false]
      have hsc := (LCPMetric.loop_spec ref mat sq_eps n T hn rest (i + 1)
        (g + d) (by omega) (by omega)).2.2.2.1
      rw [ih (i + 1) _ (by omega) (by omega)]
      have h1 : (LCPMetric.loop ref mat sq_eps n T rest (i + 1) (g + d)).scanned - i
          = ((LCPMetric.loop ref mat sq_eps n T rest (i + 1) (g + d)).scanned - (i + 1)) + 1 := by
        omega
      rw [h1, List.take_succ_cons, hd3]
      omega

/-- The counter of a scan counts the matches among the first `scanned` points. -/
theorem LCPMetric.scan_prefix (epsilon_ : Scalar) (ref : KdTree) (target : List Point)
    (mat : Mat4) (terminate_value : Scalar) (hlt : target.length < UINT_MOD) :
    (LCPMetric.scan epsilon_ ref target mat terminate_value).good_points
        + countFound ref mat (epsilon_ * epsilon_)
            (target.drop (LCPMetric.scan epsilon_ ref target mat terminate_value).scanned)
      = countFound ref mat (epsilon_ * epsilon_) target := by
  have h := LCPMetric.loop_prefix ref mat (epsilon_ * epsilon_) target.length
    (terminateIntValue terminate_value target.length) hlt target 0 0 (by simp) (le_refl _)
  simp only [Nat.zero_add, Nat.sub_zero] at h
  have hsplit := countFound_append ref mat (epsilon_ * epsilon_)
    (target.take (LCPMetric.scan epsilon_ ref target mat terminate_value).scanned)
    (target.drop (LCPMetric.scan epsilon_ ref target mat terminate_value).scanned)
  rw [List.take_append_drop] at hsplit
  rw [hsplit]
  simp only [LCPMetric.scan] at h ⊢
  rw [h]

theorem scan_fixtureLate_one :
    LCPMetric.scan (1 / 100) fixtureIndex fixtureLate Mat4.identity 1
      = { good_points := 0, scanned := 2, stopped := true } := by
  norm_num [LCPMetric.scan, LCPMetric.loop, terminateIntValue, fixtureLate,
    found_fixtureIndex, sqDist]

theorem countFound_fixtureLate :
    countFound fixtureIndex Mat4.identity ((1 / 100) * (1 / 100)) fixtureLate = 2 := by
  norm_num [countFound, List.countP_cons, fixtureLate, found_fixtureIndex, sqDist]

/-! ## Lemmas on pruning in the weighted loop -/

/-- Under the radius contract and an exact square root every weight is at most 1. -/
theorem matchWeight_le_one (sqrtS : Scalar → Scalar) (epsilon_ : Scalar) (ref : KdTree)
    (mat : Mat4) (target : List Point) (heps : 0 < epsilon_)
    (hradius : WithinRadiusOn ref mat (epsilon_ * epsilon_) target)
    (hsqrt : SqrtExactOn sqrtS ref mat (epsilon_ * epsilon_) target) :
    ∀ p ∈ target, matchWeight sqrtS epsilon_ ref mat (epsilon_ * epsilon_) p ≤ 1 := by
  intro p hp
  unfold matchWeight
  split_ifs with hf
  · exact (computeWeight_range sqrtS _ epsilon_ heps (hsqrt p hp hf).1 (hsqrt p hp hf).2
      (hradius p hp hf)).2
  · norm_num

theorem weightSum_le_length (sqrtS : Scalar → Scalar) (epsilon_ : Scalar) (ref : KdTree)
    (mat : Mat4) (sq_eps : Scalar) :
    ∀ l : List Point, (∀ p ∈ l, matchWeight sqrtS epsilon_ ref mat sq_eps p ≤ 1) →
      weightSum sqrtS epsilon_ ref mat sq_eps l ≤ (l.length : Scalar) := by
  intro l
  induction l with
  | nil =>
    intro _
    simp [weightSum]
  | cons p l ih =>
    intro h
    have h1 := h p (List.mem_cons_self _ _)
    have h2 := ih (fun p' hp' => h p' (List.mem_cons_of_mem _ hp'))
    rw [weightSum_cons, List.length_cons]
    push_cast
    linarith

/-- The weighted loop when the assertion holds and every weight is at most 1:
the scan returns; without a `break` the accumulator is the full sum, and a
`break` shows that the full sum plus one is below `terminate_int_value`. -/
theorem WeightedLCPMetric.weighted_loop_spec (NDEBUG : Bool) (sqrtS : Scalar → Scalar)
    (ref : KdTree) (mat : Mat4) (epsilon_ sq_eps : Scalar) (n T : Nat) (hn : n < SIZE_MOD) :
    ∀ (rest : List Point) (i : Nat) (g : Scalar), i + rest.length = n →
      (∀ p ∈ rest,
        ((ref { queryPoint := transformPoint mat p, sqdist := sq_eps }).1 ≠ invalidIndex →
          (ref { queryPoint := transformPoint mat p, sqdist := sq_eps }).2 ≤ sq_eps) ∧
          matchWeight sqrtS epsilon_ ref mat sq_eps p ≤ 1) →
      ∃ s : Scan Scalar,
        WeightedLCPMetric.loop NDEBUG sqrtS ref mat epsilon_ sq_eps n T rest i g = some s ∧
          g ≤ s.good_points ∧
          s.good_points ≤ g + weightSum sqrtS epsilon_ ref mat sq_eps rest ∧
          (s.stopped = false →
            s.good_points = g + weightSum sqrtS epsilon_ ref mat sq_eps rest ∧ s.scanned = n) ∧
          (s.stopped = true →
            g + weightSum sqrtS epsilon_ ref mat sq_eps rest + 1 < (T : Scalar)) := by
  intro rest
  induction rest with
  | nil =>
    intro i g hi _
    simp only [List.length_nil, Nat.add_zero] at hi
    refine ⟨_, rfl, le_refl _, by simp [weightSum], ?_, ?_⟩
    · intro _
      exact ⟨by simp [weightSum], hi⟩
    · intro h
      exact absurd h (by simp)
  | cons p rest ih =>
    intro i g hi hall
    simp only [List.length_cons] at hi
    obtain ⟨hp1, hp2⟩ := hall p (List.mem_cons_self _ _)
    have hrest : ∀ p' ∈ rest,
        ((ref { queryPoint := transformPoint mat p', sqdist := sq_eps }).1 ≠ invalidIndex →
          (ref { queryPoint := transformPoint mat p', sqdist := sq_eps }).2 ≤ sq_eps) ∧
          matchWeight sqrtS epsilon_ ref mat sq_eps p' ≤ 1 :=
      fun p' hp' => hall p' (List.mem_cons_of_mem _ hp')
    have hacc := WeightedLCPMetric.accumulate_eq NDEBUG sqrtS epsilon_ ref mat sq_eps p g
      (Or.inr hp1)
    have hw0 := matchWeight_nonneg sqrtS epsilon_ ref mat sq_eps p
    have hs0 := weightSum_nonneg sqrtS epsilon_ ref mat sq_eps rest
    have hsl := weightSum_le_length sqrtS epsilon_ ref mat sq_eps rest
      (fun p' hp' => (hrest p' hp').2)
    have hmod : (n - i) % SIZE_MOD = n - i := Nat.mod_eq_of_lt (by omega)
    have hni : (((n - i : Nat)) : Scalar) = (rest.length : Scalar) + 1 := by
      have : n - i = rest.length + 1 := by omega
      rw [this]
      push_cast
      rfl
    simp only [WeightedLCPMetric.loop, hacc, hmod, hni]
    rw [weightSum_cons]
    by_cases hchk : (rest.length : Scalar) + 1
        + (g + matchWeight sqrtS epsilon_ ref mat sq_eps p) < (T : Scalar)
    · simp only [hchk, if_true]
      refine ⟨_, rfl, ?_, ?_, ?_, ?_⟩
      · dsimp only
        linarith
      · dsimp only
        linarith
      · intro h
        exact absurd h (by simp)
      · intro _
        linarith
    · simp only [hchk, if_false]
      obtain ⟨s, hs, h1, h2, h3, h4⟩ :=
        ih (i + 1) (g + matchWeight sqrtS epsilon_ ref mat sq_eps p) (by omega) hrest
      refine ⟨s, hs, by linarith, by linarith, ?_, ?_⟩
      · intro hst
        obtain ⟨h5, h6⟩ := h3 hst
        exact ⟨by linarith, h6⟩
      · intro hst
        have := h4 hst
        linarith

theorem weighted_scan_fixtureFar_one :
    WeightedLCPMetric.scan false fixtureSqrt (1 / 100) fixtureIndex fixtureFar Mat4.identity 1
      = some { good_points := 0, scanned := 2, stopped := true } := by
  have hno := found_eq_false_of_beyond fixtureIndex fixturePoints Mat4.identity
    ((1 / 100) * (1 / 100)) fixtureFar (restrictedClosest_foundIffWithin fixturePoints)
    beyondRadius_fixtureFar
  have h0 := hno ⟨10, 10, 10⟩ (by simp [fixtureFar])
  have h1 := hno ⟨11, 10, 10⟩ (by simp [fixtureFar])
  simp only [WeightedLCPMetric.scan, fixtureFar, WeightedLCPMetric.loop,
    WeightedLCPMetric.accumulate, h0, h1, if_false]
  norm_num [terminateIntValue]

theorem withinRadiusOn_fixtureFar :
    WithinRadiusOn fixtureIndex Mat4.identity ((1 / 100) * (1 / 100)) fixtureFar :=
  fun p hp hf => absurd hf
    (found_eq_false_of_beyond fixtureIndex fixturePoints Mat4.identity ((1 / 100) * (1 / 100))
      fixtureFar (restrictedClosest_foundIffWithin fixturePoints) beyondRadius_fixtureFar p hp)

theorem sqrtExactOn_fixtureFar :
    SqrtExactOn fixtureSqrt fixtureIndex Mat4.identity ((1 / 100) * (1 / 100)) fixtureFar :=
  fun p hp hf => absurd hf
    (found_eq_false_of_beyond fixtureIndex fixturePoints Mat4.identity ((1 / 100) * (1 / 100))
      fixtureFar (restrictedClosest_foundIffWithin fixturePoints) beyondRadius_fixtureFar p hp)

/-! ## Lemmas on the evaluations of the pruning test -/

/-- The loop result read off the list of test evaluations: the loop queries as
many points as there are evaluations, returns the counter of the last one, and
is left through `break` exactly when the last test holds. -/
theorem LCPMetric.loop_checks (ref : KdTree) (mat : Mat4) (sq_eps : Scalar) (n T : Nat) :
    ∀ (rest : List Point) (i g : Nat),
      (LCPMetric.loop ref mat sq_eps n T rest i g).scanned
          = i + (LCPMetric.checks ref mat sq_eps n T rest i g).length ∧
        (LCPMetric.loop ref mat sq_eps n T rest i g).good_points
          = (((LCPMetric.checks ref mat sq_eps n T rest i g).getLast?).map Prod.snd).getD g ∧
        ((LCPMetric.loop ref mat sq_eps n T rest i g).stopped = true ↔
          ∃ c : Nat × Nat,
            (LCPMetric.checks ref mat sq_eps n T rest i g).getLast? = some c ∧
              (n - c.1 + c.2) % SIZE_MOD < T) := by
  intro rest
  induction rest with
  | nil =>
    intro i g
    simp [LCPMetric.loop, LCPMetric.checks]
  | cons p rest ih =>
    intro i g
    simp only [LCPMetric.loop, LCPMetric.checks]
    generalize (if found ref mat sq_eps p = true then (g + 1) % UINT_MOD else g) = g1
    by_cases hchk : (n - i + g1) % SIZE_MOD < T
    · simp [hchk]
    · obtain ⟨h1, h2, h3⟩ := ih (i + 1) g1
      simp only [hchk, if_false, List.length_cons, List.getLast?_cons]
      refine ⟨by omega, ?_, ?_⟩
      · rw [h2]
        cases (LCPMetric.checks ref mat sq_eps n T rest (i + 1) g1).getLast? <;> simp
      · rw [h3]
        cases hl : (LCPMetric.checks ref mat sq_eps n T rest (i + 1) g1).getLast? with
        | none => simp [hchk]
        | some c => simp

/-- At every evaluation of the pruning test the counter is at most `i + 1` and
the unsigned expression `number_of_points - i + good_points` does not wrap. -/
theorem LCPMetric.checks_spec (ref : KdTree) (mat : Mat4) (sq_eps : Scalar) (n T : Nat)
    (hn : n < UINT_MOD) :
    ∀ (rest : List Point) (i g : Nat), i + rest.length = n → g ≤ i →
      ∀ c ∈ LCPMetric.checks ref mat sq_eps n T rest i g,
        i ≤ c.1 ∧ c.1 < n ∧ c.2 ≤ c.1 + 1 ∧
          (n - c.1 + c.2) % SIZE_MOD = n - c.1 + c.2 := by
  intro rest
  induction rest with
  | nil =>
    intro i g _ _ c hc
    simp [LCPMetric.checks] at hc
  | cons p rest ih =>
    intro i g hi hg c hc
    simp only [List.length_cons] at hi
    have hg1 : (if found ref mat sq_eps p = true then (g + 1) % UINT_MOD else g) ≤ i + 1 := by
      split_ifs
      · exact le_trans (Nat.mod_le _ _) (by omega)
      · omega
    simp only [LCPMetric.checks] at hc
    revert hc hg1
    generalize (if found ref mat sq_eps p = true then (g + 1) % UINT_MOD else g) = g1
    intro hc hg1
    rcases List.mem_cons.mp hc with h | h
    · subst h
      refine ⟨le_refl _, by omega, hg1, ?_⟩
      apply Nat.mod_eq_of_lt
      simp only [UINT_MOD, SIZE_MOD] at *
      omega
    · split_ifs at h with hchk
      · simp at h
      · obtain ⟨h1, h2, h3, h4⟩ := ih (i + 1) g1 (by omega) hg1 c h
        exact ⟨by omega, h2, h3, h4⟩

theorem checks_fixturePerturbed_one :
    LCPMetric.checks fixtureIndex Mat4.identity ((1 / 100) * (1 / 100)) fixturePerturbed.length
        (terminateIntValue 1 fixturePerturbed.length) fixturePerturbed 0 0
      = [(0, 0), (1, 1), (2, 2), (3, 3)] := by
  norm_num [LCPMetric.checks, terminateIntValue, fixturePerturbed, found_fixtureIndex, sqDist]

/-! ## Lemmas comparing the weighted and the unweighted scan -/

/-- Scanning the same points, the weighted loop ends with an accumulator that
is at most the counter of the unweighted loop: it never breaks later, and each
weight is at most 1. -/
theorem WeightedLCPMetric.weighted_loop_le (NDEBUG : Bool) (sqrtS : Scalar → Scalar)
    (ref : KdTree) (mat : Mat4) (epsilon_ sq_eps : Scalar) (n T : Nat) (hn : n < UINT_MOD) :
    ∀ (rest : List Point) (i g : Nat) (gw : Scalar), i + rest.length = n → g ≤ i →
      gw ≤ (g : Scalar) →
      (∀ p ∈ rest,
        ((ref { queryPoint := transformPoint mat p, sqdist := sq_eps }).1 ≠ invalidIndex →
          (ref { queryPoint := transformPoint mat p, sqdist := sq_eps }).2 ≤ sq_eps) ∧
          matchWeight sqrtS epsilon_ ref mat sq_eps p ≤ 1) →
      ∃ s : Scan Scalar,
        WeightedLCPMetric.loop NDEBUG sqrtS ref mat epsilon_ sq_eps n T rest i gw = some s ∧
          s.good_points ≤ ((LCPMetric.loop ref mat sq_eps n T rest i g).good_points : Scalar) := by
  intro rest
  induction rest with
  | nil =>
    intro i g gw _ _ hgw _
    exact ⟨_, rfl, hgw⟩
  | cons p rest ih =>
    intro i g gw hi hg hgw hall
    simp only [List.length_cons] at hi
    obtain ⟨hp1, hp2⟩ := hall p (List.mem_cons_self _ _)
    have hrest : ∀ p' ∈ rest,
        ((ref { queryPoint := transformPoint mat p', sqdist := sq_eps }).1 ≠ invalidIndex →
          (ref { queryPoint := transformPoint mat p', sqdist := sq_eps }).2 ≤ sq_eps) ∧
          matchWeight sqrtS epsilon_ ref mat sq_eps p' ≤ 1 :=
      fun p' hp' => hall p' (List.mem_cons_of_mem _ hp')
    have hacc := WeightedLCPMetric.accumulate_eq NDEBUG sqrtS epsilon_ ref mat sq_eps p gw
      (Or.inr hp1)
    obtain ⟨d, hd1, hd2, hd3⟩ : ∃ d : Nat,
        (if found ref mat sq_eps p = true then (g + 1) % UINT_MOD else g) = g + d ∧ d ≤ 1 ∧
          matchWeight sqrtS epsilon_ ref mat sq_eps p ≤ (d : Scalar) := by
      by_cases hf : found ref mat sq_eps p = true
      · exact ⟨1, by simp only [hf, if_true]; exact Nat.mod_eq_of_lt (by omega), le_refl _,
          by simpa using hp2⟩
      · refine ⟨0, by simp only [hf, if_false]; rfl, by omega, ?_⟩
        have hnf : ¬ (ref { queryPoint := transformPoint mat p, sqdist := sq_eps }).1
            ≠ invalidIndex := fun h => hf ((found_eq_true_iff _ _ _ _).mpr h)
        simp [matchWeight, hnf]
    have hmodw : (n - i) % SIZE_MOD = n - i :=
      Nat.mod_eq_of_lt (by simp only [UINT_MOD, SIZE_MOD] at *; omega)
    have hmodu : (n - i + (g + d)) % SIZE_MOD = n - i + (g + d) :=
      Nat.mod_eq_of_lt (by simp only [UINT_MOD, SIZE_MOD] at *; omega)
    have hg1 : gw + matchWeight sqrtS epsilon_ ref mat sq_eps p ≤ ((g + d : Nat) : Scalar) := by
      push_cast
      linarith
    have hgrow := (LCPMetric.loop_spec ref mat sq_eps n T hn rest (i + 1) (g + d)
      (by omega) (by omega)).1
    have hgrowc : ((g + d : Nat) : Scalar)
        ≤ ((LCPMetric.loop ref mat sq_eps n T rest (i + 1) (g + d)).good_points : Scalar) := by
      exact_mod_cast hgrow
    simp only [WeightedLCPMetric.loop, LCPMetric.loop, hacc, hd1, hmodw, hmodu]
    by_cases hcu : n - i + (g + d) < T
    · have hcw : (((n - i : Nat)) : Scalar) + (gw + matchWeight sqrtS epsilon_ ref mat sq_eps p)
          < (T : Scalar) := by
        have h1 : (((n - i + (g + d) : Nat)) : Scalar) < (T : Scalar) := by exact_mod_cast hcu
        push_cast at h1 hg1 ⊢
        linarith
      simp only [hcu, hcw, if_true]
      exact ⟨_, rfl, hg1⟩
    · simp only [hcu, if_false]
      by_cases hcw : (((n - i : Nat)) : Scalar)
          + (gw + matchWeight sqrtS epsilon_ ref mat sq_eps p) < (T : Scalar)
      · simp only [hcw, if_true]
        exact ⟨_, rfl, le_trans hg1 hgrowc⟩
      · simp only [hcw, if_false]
        exact ih (i + 1) (g + d) _ (by omega) (by omega) hg1 hrest

/-! ## Claims on disjoint sets, the weighted scan, the kernel and the reduction -/

/-- Weighted scorer, full scan, in exact arithmetic, what C12 asks for.  With `terminate_value = 0`, a non-empty
target and `epsilon > 0`, the weighted scorer scans every point and returns the
sum over the matched points of `kernel(sqrt(d_i) / epsilon)` divided by `n`;
with an exact square root each matched point contributes
`(d_i^2 / epsilon^4 - 1)^2` and each unmatched point 0.  The index is any
index when the assertion is compiled out, and any index whose matches lie
within the query radius when it is compiled in. -/
theorem WeightedLCPMetric_full_scan (NDEBUG : Bool) (sqrtS : Scalar → Scalar)
    (epsilon_ : Scalar) (ref : KdTree) (target : List Point) (mat : Mat4)
    (_hne : 0 < target.length) (_heps : 0 < epsilon_)
    (hassert : NDEBUG = true ∨ WithinRadiusOn ref mat (epsilon_ * epsilon_) target) :
    WeightedLCPMetric.scan NDEBUG sqrtS epsilon_ ref target mat 0
        = some { good_points := weightSum sqrtS epsilon_ ref mat (epsilon_ * epsilon_) target
                 scanned := target.length
                 stopped := false } ∧
      WeightedLCPMetric NDEBUG sqrtS epsilon_ ref target mat 0
        = some (weightSum sqrtS epsilon_ ref mat (epsilon_ * epsilon_) target
            / (target.length : Scalar)) ∧
      (SqrtExactOn sqrtS ref mat (epsilon_ * epsilon_) target →
        ∀ p ∈ target,
          matchWeight sqrtS epsilon_ ref mat (epsilon_ * epsilon_) p
            = if (ref { queryPoint := transformPoint mat p,
                        sqdist := epsilon_ * epsilon_ }).1 ≠ invalidIndex then
                ((ref { queryPoint := transformPoint mat p,
                        sqdist := epsilon_ * epsilon_ }).2 ^ 2 / epsilon_ ^ 4 - 1) ^ 2
              else 0) := by
  have hscan : WeightedLCPMetric.scan NDEBUG sqrtS epsilon_ ref target mat 0
      = some { good_points := weightSum sqrtS epsilon_ ref mat (epsilon_ * epsilon_) target
               scanned := target.length
               stopped := false } := by
    have h := WeightedLCPMetric.weighted_loop_zero NDEBUG sqrtS ref mat epsilon_
      (epsilon_ * epsilon_) target.length target 0 0 (le_refl _) hassert
    simp only [zero_add] at h
    simp only [WeightedLCPMetric.scan, terminateIntValue_zero, h]
  refine ⟨hscan, ?_, ?_⟩
  · simp only [WeightedLCPMetric, hscan, Option.map_some']
  · intro hsqrt p hp
    unfold matchWeight
    split_ifs with hf
    · exact computeWeight_closed_form sqrtS _ epsilon_ (hsqrt p hp hf).2
    · rfl

/-- Instance of `WeightedLCPMetric_full_scan`: reference = the four fixture points, target = (0,0,0) and
(3/5,0,0), `epsilon = 1`, debug build: the weights are 1 and
`((4/25)^2 - 1)^2 = 370881/390625`, the score is `380753/390625`. -/
theorem WeightedLCPMetric_full_scan_witness :
    (0 < fixtureNear.length ∧ (0 : Scalar) < 1 ∧
        WithinRadiusOn fixtureIndex Mat4.identity (1 * 1) fixtureNear) ∧
      WeightedLCPMetric false fixtureSqrt 1 fixtureIndex fixtureNear Mat4.identity 0
        = some (380753 / 390625) := by
  have h := WeightedLCPMetric_full_scan false fixtureSqrt 1 fixtureIndex fixtureNear
    Mat4.identity (by decide) (by norm_num) (Or.inr withinRadiusOn_fixtureNear)
  refine ⟨⟨by decide, by norm_num, withinRadiusOn_fixtureNear⟩, ?_⟩
  rw [h.2.1, weightSum_fixtureNear]
  norm_num [fixtureNear]

/-- C13: shape of the weight kernel `kernel(x) = (x^4 - 1)^2`: `kernel(0) = 1`,
`kernel(1) = 0`, `kernel(x)` lies in (0,1] for every `x` in [0,1), and the
kernel is strictly decreasing on [0,1]. -/
theorem kernel_shape :
    kernel 0 = 1 ∧ kernel 1 = 0 ∧
      (∀ x : Scalar, 0 ≤ x → x < 1 → 0 < kernel x ∧ kernel x ≤ 1) ∧
      (∀ x y : Scalar, 0 ≤ x → x < y → y ≤ 1 → kernel y < kernel x) :=
  ⟨kernel_zero, kernel_one,
    fun x h0 h1 => ⟨kernel_pos x h0 h1, (kernel_range x h0 (le_of_lt h1)).2⟩,
    kernel_strictAnti⟩

/-- Witness of C13 at `x = 1/2`, `y = 3/4`: `kernel(1/2) = 225/256` lies in
(0,1] and `kernel(3/4) = 30625/65536` is smaller. -/
theorem kernel_shape_witness :
    ((0 : Scalar) ≤ 1 / 2 ∧ (1 / 2 : Scalar) < 3 / 4 ∧ (3 / 4 : Scalar) ≤ 1) ∧
      kernel (1 / 2) = 225 / 256 ∧ kernel (3 / 4) = 30625 / 65536 ∧
      (0 < kernel (1 / 2) ∧ kernel (1 / 2) ≤ 1) ∧ kernel (3 / 4) < kernel (1 / 2) :=
  ⟨⟨by norm_num, by norm_num, by norm_num⟩, by norm_num [kernel], by norm_num [kernel],
    kernel_shape.2.2.1 (1 / 2) (by norm_num) (by norm_num),
    kernel_shape.2.2.2 (1 / 2) (3 / 4) (by norm_num) (by norm_num) (by norm_num)⟩

/-- The transform-reduce call as the author meant it, what C14 asks for: the
parallel-reduction scorer ignores the pruning bound.  In the
transform-reduce build it returns the same result for any two values of
`terminate_value`, and that result is the number of matches over the whole
target divided by `n` (targets of `1 ≤ n < 2^32` points). -/
theorem LCPMetricReduce_ignores_bound (epsilon_ : Scalar) (ref : KdTree) (target : List Point)
    (mat : Mat4) (t₁ t₂ : Scalar) (_hne : 0 < target.length)
    (hlt : target.length < UINT_MOD) :
    LCPMetricReduce true epsilon_ ref target mat t₁
        = LCPMetricReduce true epsilon_ ref target mat t₂ ∧
      LCPMetricReduce true epsilon_ ref target mat t₁
        = (countFound ref mat (epsilon_ * epsilon_) target : Scalar)
          / (target.length : Scalar) := by
  rw [LCPMetricReduce_true_eq, LCPMetricReduce_true_eq, LCPMetric_zero_eq _ _ _ _ hlt]
  exact ⟨rfl, rfl⟩

/-- Instance of `LCPMetricReduce_ignores_bound`: the perturbed scenario with `terminate_value` 0 and 1; the
score is 3/4 for both. -/
theorem LCPMetricReduce_ignores_bound_witness :
    (0 < fixturePerturbed.length ∧ fixturePerturbed.length < UINT_MOD) ∧
      LCPMetricReduce true (1 / 100) fixtureIndex fixturePerturbed Mat4.identity 0
        = LCPMetricReduce true (1 / 100) fixtureIndex fixturePerturbed Mat4.identity 1 ∧
      LCPMetricReduce true (1 / 100) fixtureIndex fixturePerturbed Mat4.identity 0 = 3 / 4 := by
  have h := LCPMetricReduce_ignores_bound (1 / 100) fixtureIndex fixturePerturbed
    Mat4.identity 0 1 (by decide) (by decide)
  refine ⟨⟨by decide, by decide⟩, h.1, ?_⟩
  rw [h.2, countFound_fixturePerturbed]
  norm_num [fixturePerturbed]

/-- The transform-reduce call as the author meant it, what C15 asks for:
ordering invariance of the parallel-reduction scorer.  In the
transform-reduce build two non-empty targets that are permutations of each
other get the same score; and every grouping, in any order, of the initial
value 0 and the per-point 0/1 values under the reduce lambda yields the score
the scorer returns. -/
theorem LCPMetricReduce_order_invariant (epsilon_ : Scalar) (ref : KdTree)
    (target₁ target₂ : List Point) (mat : Mat4) (terminate_value : Scalar)
    (_hne : 0 < target₁.length) (hperm : target₁.Perm target₂) :
    LCPMetricReduce true epsilon_ ref target₁ mat terminate_value
        = LCPMetricReduce true epsilon_ ref target₂ mat terminate_value ∧
      ∀ tree : ReduceTree,
        tree.leaves.Perm (0 :: target₁.map (transformOp ref mat (epsilon_ * epsilon_))) →
        ((tree.value : Nat) : Scalar) / (target₁.length : Scalar)
          = LCPMetricReduce true epsilon_ ref target₁ mat terminate_value := by
  refine ⟨?_, ?_⟩
  · rw [LCPMetricReduce_true_count, LCPMetricReduce_true_count, countFound, countFound,
      hperm.countP_eq, hperm.length_eq]
  · intro tree hleaves
    have hlt : ∀ v ∈ tree.leaves, v < UINT_MOD := by
      intro v hv
      rcases List.mem_cons.mp (hleaves.subset hv) with h | h
      · rw [h]; decide
      · obtain ⟨p, _, rfl⟩ := List.mem_map.mp h
        exact transformOp_lt _ _ _ _
    rw [ReduceTree.value_eq_sum tree hlt, hleaves.sum_eq, List.sum_cons, zero_add,
      sum_map_transformOp, LCPMetricReduce_true_count]

/-- Instance of `LCPMetricReduce_order_invariant`: the perturbed target and a reordering of it, and a balanced
grouping of the values 1, 0, 0, 1, 1, which evaluates to 3. -/
theorem LCPMetricReduce_order_invariant_witness :
    (0 < fixturePerturbed.length ∧ fixturePerturbed.Perm fixtureShuffled) ∧
      LCPMetricReduce true (1 / 100) fixtureIndex fixturePerturbed Mat4.identity 0
        = LCPMetricReduce true (1 / 100) fixtureIndex fixtureShuffled Mat4.identity 0 ∧
      fixtureTree.value = 3 ∧
      ((fixtureTree.value : Nat) : Scalar) / (fixturePerturbed.length : Scalar)
        = LCPMetricReduce true (1 / 100) fixtureIndex fixturePerturbed Mat4.identity 0 := by
  have h := LCPMetricReduce_order_invariant (1 / 100) fixtureIndex fixturePerturbed
    fixtureShuffled Mat4.identity 0 (by decide) fixturePerturbed_perm_fixtureShuffled
  refine ⟨⟨by decide, fixturePerturbed_perm_fixtureShuffled⟩, h.1, by decide, h.2 fixtureTree ?_⟩
  rw [map_transformOp_fixturePerturbed]
  decide

/-- Counterexample to C16 as stated: four far target points with
`terminate_value = 1`.  The loop is left through `break` after two points with
score 0, and the full-scan score is 0 as well: the returned score is not
strictly less than the full-scan score. -/
theorem LCPMetric_early_result_counterexample :
    (LCPMetric.scan (1 / 100) fixtureIndex fixtureFar Mat4.identity 1).stopped = true ∧
      LCPMetric (1 / 100) fixtureIndex fixtureFar Mat4.identity 1 = 0 ∧
      LCPMetric (1 / 100) fixtureIndex fixtureFar Mat4.identity 0 = 0 ∧
      ¬ (LCPMetric (1 / 100) fixtureIndex fixtureFar Mat4.identity 1
        < LCPMetric (1 / 100) fixtureIndex fixtureFar Mat4.identity 0) := by
  have h1 : LCPMetric (1 / 100) fixtureIndex fixtureFar Mat4.identity 1 = 0 := by
    rw [LCPMetric, scan_fixtureFar_one]
    norm_num
  have h0 : LCPMetric (1 / 100) fixtureIndex fixtureFar Mat4.identity 0 = 0 := by
    rw [LCPMetric_zero_eq _ _ _ _ (by decide), countFound_fixtureFar]
    norm_num
  refine ⟨by rw [scan_fixtureFar_one], h1, h0, ?_⟩
  rw [h1, h0]
  exact lt_irrefl 0

/-- C16, amended: on every input on which the sequential scorer leaves its loop
through the early-termination `break` (target of `1 ≤ n < 2^32` points,
`terminate_value` in [0,1]), the returned score is less than or equal to the
full-scan score (the result with `terminate_value = 0`), and it is strictly
less exactly when some point that was not queried has a match. -/
theorem LCPMetric_early_result (epsilon_ : Scalar) (ref : KdTree) (target : List Point)
    (mat : Mat4) (terminate_value : Scalar) (hne : 0 < target.length)
    (hlt : target.length < UINT_MOD) (_ht0 : 0 ≤ terminate_value) (_ht1 : terminate_value ≤ 1)
    (_hstop : (LCPMetric.scan epsilon_ ref target mat terminate_value).stopped = true) :
    LCPMetric epsilon_ ref target mat terminate_value ≤ LCPMetric epsilon_ ref target mat 0 ∧
      (LCPMetric epsilon_ ref target mat terminate_value < LCPMetric epsilon_ ref target mat 0 ↔
        0 < countFound ref mat (epsilon_ * epsilon_)
          (target.drop (LCPMetric.scan epsilon_ ref target mat terminate_value).scanned)) := by
  have hn : (0 : Scalar) < (target.length : Scalar) := by exact_mod_cast hne
  have hpre := LCPMetric.scan_prefix epsilon_ ref target mat terminate_value hlt
  rw [LCPMetric_zero_eq _ _ _ _ hlt, LCPMetric, div_le_div_iff_of_pos_right hn, div_lt_div_iff_of_pos_right hn,
    Nat.cast_le, Nat.cast_lt]
  constructor <;> omega

/-- Witness of amended C16: two far points followed by two reference points,
`terminate_value = 1`; the scan breaks after two points with score 0, two
matches are left unqueried, and the full-scan score is 1/2. -/
theorem LCPMetric_early_result_witness :
    (0 < fixtureLate.length ∧ fixtureLate.length < UINT_MOD ∧
        (0 : Scalar) ≤ 1 ∧ (1 : Scalar) ≤ 1 ∧
        (LCPMetric.scan (1 / 100) fixtureIndex fixtureLate Mat4.identity 1).stopped = true) ∧
      LCPMetric (1 / 100) fixtureIndex fixtureLate Mat4.identity 1 = 0 ∧
      LCPMetric (1 / 100) fixtureIndex fixtureLate Mat4.identity 0 = 1 / 2 ∧
      LCPMetric (1 / 100) fixtureIndex fixtureLate Mat4.identity 1
        < LCPMetric (1 / 100) fixtureIndex fixtureLate Mat4.identity 0 := by
  have hstop : (LCPMetric.scan (1 / 100) fixtureIndex fixtureLate Mat4.identity 1).stopped
      = true := by
    rw [scan_fixtureLate_one]
  have h := LCPMetric_early_result (1 / 100) fixtureIndex fixtureLate Mat4.identity 1
    (by decide) (by decide) (by norm_num) (by norm_num) hstop
  have h1 : LCPMetric (1 / 100) fixtureIndex fixtureLate Mat4.identity 1 = 0 := by
    rw [LCPMetric, scan_fixtureLate_one]
    norm_num
  have h0 : LCPMetric (1 / 100) fixtureIndex fixtureLate Mat4.identity 0 = 1 / 2 := by
    rw [LCPMetric_zero_eq _ _ _ _ (by decide), countFound_fixtureLate]
    norm_num [fixtureLate]
  refine ⟨⟨by decide, by decide, by norm_num, by norm_num, hstop⟩, h1, h0, h.2.mpr ?_⟩
  rw [scan_fixtureLate_one]
  norm_num [countFound, List.countP_cons, fixtureLate, found_fixtureIndex, sqDist]

/-- Pruning in the weighted scorer in exact arithmetic, what C17 asks for.  For an index whose matches
lie within the query radius, a non-empty target, `epsilon > 0` and
`terminate_value` in [0,1], the scan returns; if it leaves its loop through the
early-termination `break`, the full-scan weighted score (the result with
`terminate_value = 0`) is strictly below `terminate_value`; and whenever the
full-scan weighted score is at least `terminate_value`, the call scans every
point and returns exactly the full-scan weighted score.  `std::sqrt` is taken
exact on the matched squared distances; the target size is a `size_t`. -/
theorem WeightedLCPMetric_pruning_sound (NDEBUG : Bool) (sqrtS : Scalar → Scalar)
    (epsilon_ : Scalar) (ref : KdTree) (target : List Point) (mat : Mat4)
    (terminate_value : Scalar) (hne : 0 < target.length) (hsize : target.length < SIZE_MOD)
    (heps : 0 < epsilon_) (ht0 : 0 ≤ terminate_value) (_ht1 : terminate_value ≤ 1)
    (hradius : WithinRadiusOn ref mat (epsilon_ * epsilon_) target)
    (hsqrt : SqrtExactOn sqrtS ref mat (epsilon_ * epsilon_) target) :
    ∃ (s : Scan Scalar) (full : Scalar),
      WeightedLCPMetric.scan NDEBUG sqrtS epsilon_ ref target mat terminate_value = some s ∧
        WeightedLCPMetric NDEBUG sqrtS epsilon_ ref target mat 0 = some full ∧
        (s.stopped = true → full < terminate_value) ∧
        (terminate_value ≤ full →
          s.stopped = false ∧ s.scanned = target.length ∧
            WeightedLCPMetric NDEBUG sqrtS epsilon_ ref target mat terminate_value
              = some full) := by
  have hn : (0 : Scalar) < (target.length : Scalar) := by exact_mod_cast hne
  have hle := matchWeight_le_one sqrtS epsilon_ ref mat target heps hradius hsqrt
  obtain ⟨s, hs, _, _, hfull, hstop⟩ :=
    WeightedLCPMetric.weighted_loop_spec NDEBUG sqrtS ref mat epsilon_ (epsilon_ * epsilon_)
      target.length (terminateIntValue terminate_value target.length) hsize target 0 0
      (by simp) (fun p hp => ⟨hradius p hp, hle p hp⟩)
  have hzero := (WeightedLCPMetric_full_scan_aux NDEBUG sqrtS epsilon_ ref target mat
    (Or.inr hradius))
  have hT := terminateIntValue_cast_le terminate_value target.length ht0
  have hsound : s.stopped = true →
      weightSum sqrtS epsilon_ ref mat (epsilon_ * epsilon_) target / (target.length : Scalar)
        < terminate_value := by
    intro hst
    have h := hstop hst
    rw [div_lt_iff₀ hn]
    linarith
  refine ⟨s, _, hs, hzero, hsound, ?_⟩
  intro hge
  have hns : s.stopped = false := by
    cases h : s.stopped
    · rfl
    · exact absurd (hsound h) (not_lt.mpr hge)
  obtain ⟨hg, hsc⟩ := hfull hns
  refine ⟨hns, hsc, ?_⟩
  simp only [WeightedLCPMetric]
  rw [show WeightedLCPMetric.scan NDEBUG sqrtS epsilon_ ref target mat terminate_value = some s
    from hs]
  simp only [Option.map_some', hg, zero_add]

/-- Instance of `WeightedLCPMetric_pruning_sound`: reference = the four fixture points, debug build.  With
target = (0,0,0) and (3/5,0,0), `epsilon = 1`, `terminate_value = 1/2` the
full-scan weighted score `380753/390625` reaches 1/2 and the call returns it;
with four far target points, `epsilon = 0.01`, `terminate_value = 1` the scan
breaks and the full-scan weighted score is below 1. -/
theorem WeightedLCPMetric_pruning_sound_witness :
    (0 < fixtureNear.length ∧ fixtureNear.length < SIZE_MOD ∧ (0 : Scalar) < 1 ∧
        (0 : Scalar) ≤ 1 / 2 ∧ (1 / 2 : Scalar) ≤ 1 ∧
        WithinRadiusOn fixtureIndex Mat4.identity (1 * 1) fixtureNear ∧
        SqrtExactOn fixtureSqrt fixtureIndex Mat4.identity (1 * 1) fixtureNear) ∧
      WeightedLCPMetric false fixtureSqrt 1 fixtureIndex fixtureNear Mat4.identity (1 / 2)
        = some (380753 / 390625) ∧
      ∃ (s : Scan Scalar) (full : Scalar),
        WeightedLCPMetric.scan false fixtureSqrt (1 / 100) fixtureIndex fixtureFar
            Mat4.identity 1 = some s ∧
          s.stopped = true ∧
          WeightedLCPMetric false fixtureSqrt (1 / 100) fixtureIndex fixtureFar Mat4.identity 0
            = some full ∧
          full < 1 := by
  obtain ⟨s, full, _, hfull, _, hret⟩ :=
    WeightedLCPMetric_pruning_sound false fixtureSqrt 1 fixtureIndex fixtureNear Mat4.identity
      (1 / 2) (by decide) (by decide) (by norm_num) (by norm_num) (by norm_num)
      withinRadiusOn_fixtureNear sqrtExactOn_fixtureNear
  obtain ⟨s₂, full₂, hs₂, hfull₂, hbreak₂, _⟩ :=
    WeightedLCPMetric_pruning_sound false fixtureSqrt (1 / 100) fixtureIndex fixtureFar
      Mat4.identity 1 (by decide) (by decide) (by norm_num) (by norm_num) (by norm_num)
      withinRadiusOn_fixtureFar sqrtExactOn_fixtureFar
  have hval : WeightedLCPMetric false fixtureSqrt 1 fixtureIndex fixtureNear Mat4.identity 0
      = some (380753 / 390625) := by
    rw [WeightedLCPMetric_full_scan_aux false fixtureSqrt 1 fixtureIndex fixtureNear
      Mat4.identity (Or.inr withinRadiusOn_fixtureNear), weightSum_fixtureNear]
    norm_num [fixtureNear]
  have hfv : full = 380753 / 390625 := by
    rw [hfull] at hval
    exact Option.some.inj hval
  have hst₂ : s₂.stopped = true := by
    rw [weighted_scan_fixtureFar_one] at hs₂
    rw [← Option.some.inj hs₂]
  refine ⟨⟨by decide, by decide, by norm_num, by norm_num, by norm_num,
    withinRadiusOn_fixtureNear, sqrtExactOn_fixtureNear⟩, ?_,
    ⟨s₂, full₂, hs₂, hst₂, hfull₂, hbreak₂ hst₂⟩⟩
  rw [(hret (by rw [hfv]; norm_num)).2.2, hfv]

/-- C18: no unsigned wraparound in the pruning test of the sequential scorer.
For a target of `1 ≤ n < 2^32` points and `terminate_value` in [0,1], the test
is evaluated once per point queried, and at every evaluation (loop index `i`,
counter `goodCount`): `i < n`, `goodCount ≤ i + 1`, `n - i ≥ 1`, the unsigned
expression `n - i + goodCount` equals its mathematical value and lies in
`[1, n + 1]`; and `terminate_int_value` is `floor(terminate_value * n) ≤ n`. -/
theorem LCPMetric_check_no_wrap (epsilon_ : Scalar) (ref : KdTree) (target : List Point)
    (mat : Mat4) (terminate_value : Scalar) (_hne : 0 < target.length)
    (hlt : target.length < UINT_MOD) (_ht0 : 0 ≤ terminate_value) (ht1 : terminate_value ≤ 1) :
    (LCPMetric.scan epsilon_ ref target mat terminate_value).scanned
        = (LCPMetric.checks ref mat (epsilon_ * epsilon_) target.length
            (terminateIntValue terminate_value target.length) target 0 0).length ∧
      terminateIntValue terminate_value target.length
        = ⌊terminate_value * (target.length : Scalar)⌋₊ ∧
      ⌊terminate_value * (target.length : Scalar)⌋₊ ≤ target.length ∧
      ∀ c ∈ LCPMetric.checks ref mat (epsilon_ * epsilon_) target.length
          (terminateIntValue terminate_value target.length) target 0 0,
        c.1 < target.length ∧ c.2 ≤ c.1 + 1 ∧ 1 ≤ target.length - c.1 ∧
          (target.length - c.1 + c.2) % SIZE_MOD = target.length - c.1 + c.2 ∧
          1 ≤ target.length - c.1 + c.2 ∧ target.length - c.1 + c.2 ≤ target.length + 1 := by
  have hT : terminateIntValue terminate_value target.length
      = ⌊terminate_value * (target.length : Scalar)⌋₊ :=
    terminateIntValue_eq_floor _ _ ht1 (lt_trans hlt (by decide : UINT_MOD < SIZE_MOD))
  have hTle := terminateIntValue_le terminate_value target.length ht1
  have hlink := (LCPMetric.loop_checks ref mat (epsilon_ * epsilon_) target.length
    (terminateIntValue terminate_value target.length) target 0 0).1
  refine ⟨by simpa [LCPMetric.scan] using hlink, hT, by rw [← hT]; exact hTle, ?_⟩
  intro c hc
  obtain ⟨_, h2, h3, h4⟩ := LCPMetric.checks_spec ref mat (epsilon_ * epsilon_) target.length
    (terminateIntValue terminate_value target.length) hlt target 0 0 (by simp) (le_refl _) c hc
  exact ⟨h2, h3, by omega, h4, by omega, by omega⟩

/-- Witness of C18: the perturbed scenario with `terminate_value = 1`; the test
is evaluated at (i, goodCount) = (0,0), (1,1), (2,2), (3,3), with value 4 each
time. -/
theorem LCPMetric_check_no_wrap_witness :
    (0 < fixturePerturbed.length ∧ fixturePerturbed.length < UINT_MOD ∧
        (0 : Scalar) ≤ 1 ∧ (1 : Scalar) ≤ 1) ∧
      LCPMetric.checks fixtureIndex Mat4.identity ((1 / 100) * (1 / 100))
          fixturePerturbed.length (terminateIntValue 1 fixturePerturbed.length)
          fixturePerturbed 0 0
        = [(0, 0), (1, 1), (2, 2), (3, 3)] ∧
      (fixturePerturbed.length - 3 + 3) % SIZE_MOD = fixturePerturbed.length - 3 + 3 ∧
      fixturePerturbed.length - 3 + 3 ≤ fixturePerturbed.length + 1 := by
  have h := (LCPMetric_check_no_wrap (1 / 100) fixtureIndex fixturePerturbed Mat4.identity 1
    (by decide) (by decide) (by norm_num) (by norm_num)).2.2.2 (3, 3)
    (by rw [checks_fixturePerturbed_one]; decide)
  exact ⟨⟨by decide, by decide, by norm_num, by norm_num⟩, checks_fixturePerturbed_one,
    h.2.2.2.1, h.2.2.2.2.2⟩

/-- The weighted and the unweighted score in exact arithmetic, what C19 asks
for.  For an index
whose matches lie within the query radius, a target of `1 ≤ n < 2^32` points,
`epsilon > 0` and `terminate_value` in [0,1], the weighted scorer returns and
its result is at most the result of the sequential scorer called with the same
`epsilon` and the same `terminate_value`, also when one or both scans terminate
early.  `std::sqrt` is taken exact on the matched squared distances. -/
theorem WeightedLCPMetric_le_LCPMetric (NDEBUG : Bool) (sqrtS : Scalar → Scalar)
    (epsilon_ : Scalar) (ref : KdTree) (target : List Point) (mat : Mat4)
    (terminate_value : Scalar) (_hne : 0 < target.length) (hlt : target.length < UINT_MOD)
    (heps : 0 < epsilon_) (_ht0 : 0 ≤ terminate_value) (_ht1 : terminate_value ≤ 1)
    (hradius : WithinRadiusOn ref mat (epsilon_ * epsilon_) target)
    (hsqrt : SqrtExactOn sqrtS ref mat (epsilon_ * epsilon_) target) :
    ∃ w : Scalar,
      WeightedLCPMetric NDEBUG sqrtS epsilon_ ref target mat terminate_value = some w ∧
        w ≤ LCPMetric epsilon_ ref target mat terminate_value := by
  have hle := matchWeight_le_one sqrtS epsilon_ ref mat target heps hradius hsqrt
  obtain ⟨s, hs, hcmp⟩ :=
    WeightedLCPMetric.weighted_loop_le NDEBUG sqrtS ref mat epsilon_ (epsilon_ * epsilon_)
      target.length (terminateIntValue terminate_value target.length) hlt target 0 0 0
      (by simp) (le_refl _) (by simp) (fun p hp => ⟨hradius p hp, hle p hp⟩)
  refine ⟨s.good_points / (target.length : Scalar), ?_, ?_⟩
  · simp only [WeightedLCPMetric, WeightedLCPMetric.scan, hs, Option.map_some']
  · exact div_le_div_of_nonneg_right hcmp (Nat.cast_nonneg _)

/-- Instance of `WeightedLCPMetric_le_LCPMetric`: reference = the four fixture points, target = (0,0,0) and
(3/5,0,0), `epsilon = 1`, `terminate_value = 1/2`, debug build. -/
theorem WeightedLCPMetric_le_LCPMetric_witness :
    (0 < fixtureNear.length ∧ fixtureNear.length < UINT_MOD ∧ (0 : Scalar) < 1 ∧
        (0 : Scalar) ≤ 1 / 2 ∧ (1 / 2 : Scalar) ≤ 1 ∧
        WithinRadiusOn fixtureIndex Mat4.identity (1 * 1) fixtureNear ∧
        SqrtExactOn fixtureSqrt fixtureIndex Mat4.identity (1 * 1) fixtureNear) ∧
      ∃ w : Scalar,
        WeightedLCPMetric false fixtureSqrt 1 fixtureIndex fixtureNear Mat4.identity (1 / 2)
            = some w ∧
          w ≤ LCPMetric 1 fixtureIndex fixtureNear Mat4.identity (1 / 2) :=
  ⟨⟨by decide, by decide, by norm_num, by norm_num, by norm_num, withinRadiusOn_fixtureNear,
      sqrtExactOn_fixtureNear⟩,
    WeightedLCPMetric_le_LCPMetric false fixtureSqrt 1 fixtureIndex fixtureNear Mat4.identity
      (1 / 2) (by decide) (by decide) (by norm_num) (by norm_num) (by norm_num)
      withinRadiusOn_fixtureNear sqrtExactOn_fixtureNear⟩

/-! ## Lemmas for a square root that is not exact -/

/-- The weight of a match whose root lies in `[0, th]` lies in [0,1]. -/
theorem computeWeight_range_of_le (sqrtS : Scalar → Scalar) (d th : Scalar) (hth : 0 < th)
    (hs0 : 0 ≤ sqrtS d) (hs : sqrtS d ≤ th) :
    0 ≤ computeWeight sqrtS d th ∧ computeWeight sqrtS d th ≤ 1 :=
  kernel_range _ (div_nonneg hs0 (le_of_lt hth)) ((div_le_one hth).mpr hs)

theorem fixtureIndex_half :
    fixtureIndex { queryPoint := ⟨1 / 2, 1 / 2, 0⟩, sqdist := 1 } = (2, 1 / 2) := by
  norm_num [fixtureIndex, restrictedClosest, restrictedClosestFrom, restrictedClosestStep,
    fixturePoints, sqDist]

theorem withinRadiusOn_fixtureHalf :
    WithinRadiusOn fixtureIndex Mat4.identity (1 * 1) fixtureHalf := by
  intro p hp
  simp only [fixtureHalf, List.mem_singleton] at hp
  subst hp
  rw [transformPoint_identity, mul_one, fixtureIndex_half]
  norm_num

theorem sqrtWithinOn_fixtureHalf :
    SqrtWithinOn fixtureSqrtRounded 1 fixtureIndex Mat4.identity (1 * 1) fixtureHalf := by
  intro p hp
  simp only [fixtureHalf, List.mem_singleton] at hp
  subst hp
  rw [transformPoint_identity, mul_one, fixtureIndex_half]
  norm_num [fixtureSqrtRounded]

/-! ## Lemmas on the scan for an arbitrary value of the bound -/

/-- When at least three more matches than possible are needed, the loop stops
before it has queried every point (targets of at least two points). -/
theorem LCPMetric.loop_early_any (ref : KdTree) (mat : Mat4) (sq_eps : Scalar) (n T : Nat)
    (hn : n < UINT_MOD) (h2 : 2 ≤ n) :
    ∀ (rest : List Point) (i g : Nat), i + rest.length = n → g ≤ i →
      (i = 0 ∨ T ≤ n - i + 1 + g) → g + countFound ref mat sq_eps rest + 2 < T →
      (LCPMetric.loop ref mat sq_eps n T rest i g).scanned < n := by
  intro rest
  induction rest with
  | nil =>
    intro i g hi hg hT hm
    simp only [List.length_nil] at hi
    simp only [countFound, List.countP_nil] at hm
    omega
  | cons p rest ih =>
    intro i g hi hg hT hm
    simp only [List.length_cons] at hi
    have hle := countFound_le_length ref mat sq_eps rest
    rw [countFound_cons] at hm
    simp only [LCPMetric.loop, UINT_MOD, SIZE_MOD] at hn ⊢
    by_cases hf : found ref mat sq_eps p = true
    · simp only [hf, if_true] at hm ⊢
      have hg1 : (g + 1) % 4294967296 = g + 1 := by omega
      have hs : (n - i + (g + 1)) % 18446744073709551616 = n - i + (g + 1) := by omega
      rw [hg1, hs]
      by_cases hchk : n - i + (g + 1) < T
      · simp only [hchk, if_true]
        omega
      · simp only [hchk, if_false]
        exact ih (i + 1) (g + 1) (by omega) (by omega) (Or.inr (by omega)) (by omega)
    · simp only [hf, if_false, Bool.false_eq_true] at hm ⊢
      have hs : (n - i + g) % 18446744073709551616 = n - i + g := by omega
      rw [hs]
      by_cases hchk : n - i + g < T
      · simp only [hchk, if_true]
        omega
      · simp only [hchk, if_false]
        exact ih (i + 1) g (by omega) (by omega) (Or.inr (by omega)) (by omega)

theorem countFound_fixtureTen :
    countFound fixtureIndex Mat4.identity ((1 / 100) * (1 / 100)) fixtureTen = 5 := by
  norm_num [countFound, List.countP_cons, fixtureTen, found_fixtureIndex, sqDist]

theorem scanWith_fixtureTen_seven :
    LCPMetric.scanWith 7 (1 / 100) fixtureIndex fixtureTen Mat4.identity
      = { good_points := 0, scanned := 5, stopped := true } := by
  norm_num [LCPMetric.scanWith, LCPMetric.loop, fixtureTen, found_fixtureIndex, sqDist]

theorem scanWith_fixtureTen_six :
    LCPMetric.scanWith 6 (1 / 100) fixtureIndex fixtureTen Mat4.identity
      = { good_points := 5, scanned := 10, stopped := false } := by
  norm_num [LCPMetric.scanWith, LCPMetric.loop, fixtureTen, found_fixtureIndex, sqDist]

/-! ## Lemmas on targets beyond the range of the counter -/

theorem countFound_replicate (ref : KdTree) (mat : Mat4) (sq_eps : Scalar) (k : Nat)
    (p : Point) :
    countFound ref mat sq_eps (List.replicate k p)
      = if found ref mat sq_eps p = true then k else 0 := by
  simp [countFound, List.countP_replicate]

theorem found_origin_small :
    found fixtureIndex Mat4.identity ((1 / 100) * (1 / 100)) ⟨0, 0, 0⟩ = true := by
  rw [found_fixtureIndex]
  norm_num [sqDist]

theorem found_far_small :
    found fixtureIndex Mat4.identity ((1 / 100) * (1 / 100)) ⟨10, 10, 10⟩ = false := by
  rw [← Bool.not_eq_true, found_fixtureIndex]
  norm_num [sqDist]

theorem found_far2_small :
    found fixtureIndex Mat4.identity ((1 / 100) * (1 / 100)) ⟨11, 10, 10⟩ = false := by
  rw [← Bool.not_eq_true, found_fixtureIndex]
  norm_num [sqDist]

theorem found_near_small :
    found fixtureIndex Mat4.identity ((1 / 100) * (1 / 100)) ⟨1 / 2, 0, 0⟩ = false := by
  rw [← Bool.not_eq_true, found_fixtureIndex]
  norm_num [sqDist]

theorem found_origin_one :
    found fixtureIndex Mat4.identity (1 * 1) ⟨0, 0, 0⟩ = true := by
  rw [found_fixtureIndex]
  norm_num [sqDist]

theorem found_near_one :
    found fixtureIndex Mat4.identity (1 * 1) ⟨1 / 2, 0, 0⟩ = true := by
  rw [found_fixtureIndex]
  norm_num [sqDist]

/-- Over a run of `k` copies of a matching point during which the pruning test
stays false and the counter stays below `UINT_MOD`, the loop advances the index
and the counter by `k`. -/
theorem LCPMetric.loop_replicate_match (ref : KdTree) (mat : Mat4) (sq_eps : Scalar)
    (n T : Nat) (p : Point) (hp : found ref mat sq_eps p = true) (rest : List Point) :
    ∀ (k i g : Nat), i + k ≤ n → g + k < UINT_MOD → n + g + k + 1 < SIZE_MOD →
      T ≤ n - i + g + 1 →
      LCPMetric.loop ref mat sq_eps n T (List.replicate k p ++ rest) i g
        = LCPMetric.loop ref mat sq_eps n T rest (i + k) (g + k) := by
  simp only [UINT_MOD, SIZE_MOD]
  intro k
  induction k with
  | zero =>
    intro i g _ _ _ _
    simp
  | succ k ih =>
    intro i g hi hg hs hT
    have hg1 : (g + 1) % 4294967296 = g + 1 := Nat.mod_eq_of_lt (by omega)
    have hmod : (n - i + (g + 1)) % 18446744073709551616 = n - i + (g + 1) :=
      Nat.mod_eq_of_lt (by omega)
    have hchk : ¬ (n - i + (g + 1) < T) := by omega
    rw [List.replicate_succ, List.cons_append]
    simp only [LCPMetric.loop, UINT_MOD, SIZE_MOD, hp, if_true, hg1, hmod, hchk, if_false]
    rw [ih (i + 1) (g + 1) (by omega) (by omega) (by omega) (by omega)]
    congr 1 <;> omega

theorem length_fixtureHuge : fixtureHuge.length = 4294967296 := by
  rw [fixtureHuge, List.length_replicate]

theorem length_fixtureHugeNear : fixtureHugeNear.length = 4294967296 := by
  rw [fixtureHugeNear, List.length_cons, List.length_replicate]

theorem length_fixtureWrap : fixtureWrap.length = 8589934592 := by
  rw [fixtureWrap, List.length_append, List.length_cons, List.length_cons, List.length_cons,
    List.length_replicate, List.length_replicate]

theorem countFound_fixtureHuge :
    countFound fixtureIndex Mat4.identity ((1 / 100) * (1 / 100)) fixtureHuge = 4294967296 := by
  rw [fixtureHuge, countFound_replicate, found_origin_small]
  rfl

theorem countFound_fixtureHugeNear_small :
    countFound fixtureIndex Mat4.identity ((1 / 100) * (1 / 100)) fixtureHugeNear = 1 := by
  rw [fixtureHugeNear, countFound_cons, countFound_replicate, found_origin_small,
    found_near_small]
  simp

theorem countFound_fixtureHugeNear_one :
    countFound fixtureIndex Mat4.identity (1 * 1) fixtureHugeNear = 4294967296 := by
  rw [fixtureHugeNear, countFound_cons, countFound_replicate, found_origin_one,
    found_near_one]
  simp

theorem countFound_fixtureWrap :
    countFound fixtureIndex Mat4.identity ((1 / 100) * (1 / 100)) fixtureWrap = 4294967296 := by
  rw [fixtureWrap, countFound_append, countFound_cons, countFound_cons, countFound_cons,
    countFound_replicate, countFound_replicate, found_origin_small, found_far_small,
    found_far2_small]
  simp

/-- The score for `terminate_value = 0`, without a bound on the target size. -/
theorem LCPMetric_zero_eq_mod (epsilon_ : Scalar) (ref : KdTree) (target : List Point)
    (mat : Mat4) :
    LCPMetric epsilon_ ref target mat 0
      = ((countFound ref mat (epsilon_ * epsilon_) target % UINT_MOD : Nat) : Scalar)
        / (target.length : Scalar) := by
  rw [LCPMetric, LCPMetric.scan_zero]

/-- One iteration of the loop on a point without a match. -/
theorem LCPMetric.loop_cons_no_match (ref : KdTree) (mat : Mat4) (sq_eps : Scalar)
    (n T : Nat) (p : Point) (hp : found ref mat sq_eps p = false) (rest : List Point)
    (i g : Nat) :
    LCPMetric.loop ref mat sq_eps n T (p :: rest) i g
      = if (n - i + g) % SIZE_MOD < T then
          { good_points := g, scanned := i + 1, stopped := true }
        else LCPMetric.loop ref mat sq_eps n T rest (i + 1) g := by
  simp only [LCPMetric.loop, hp, Bool.false_eq_true, if_false]

theorem scan_fixtureWrap_one :
    LCPMetric.scan (1 / 100) fixtureIndex fixtureWrap Mat4.identity 1
      = { good_points := 4294967295, scanned := 4294967297, stopped := true } := by
  have hT : terminateIntValue 1 8589934592 = 8589934592 := by
    norm_num [terminateIntValue]
  have hpre := LCPMetric.loop_replicate_match fixtureIndex Mat4.identity
    ((1 / 100) * (1 / 100)) 8589934592 8589934592 ⟨0, 0, 0⟩ found_origin_small
    (⟨10, 10, 10⟩ :: ⟨11, 10, 10⟩ :: ⟨0, 0, 0⟩ :: List.replicate 4294967294 ⟨10, 10, 10⟩)
    4294967295 0 0 (by norm_num) (by norm_num) (by norm_num) (by norm_num)
  simp only [Nat.zero_add] at hpre
  rw [LCPMetric.scan, length_fixtureWrap, hT, fixtureWrap, hpre,
    LCPMetric.loop_cons_no_match _ _ _ _ _ _ found_far_small, if_neg (by norm_num),
    LCPMetric.loop_cons_no_match _ _ _ _ _ _ found_far2_small, if_pos (by norm_num)]

/-! ## Lemmas on the first iteration of a scan -/

/-- One iteration of the loop on a point with a match. -/
theorem LCPMetric.loop_cons_match (ref : KdTree) (mat : Mat4) (sq_eps : Scalar)
    (n T : Nat) (p : Point) (hp : found ref mat sq_eps p = true) (rest : List Point)
    (i g : Nat) :
    LCPMetric.loop ref mat sq_eps n T (p :: rest) i g
      = if (n - i + (g + 1) % UINT_MOD) % SIZE_MOD < T then
          { good_points := (g + 1) % UINT_MOD, scanned := i + 1, stopped := true }
        else LCPMetric.loop ref mat sq_eps n T rest (i + 1) ((g + 1) % UINT_MOD) := by
  simp only [LCPMetric.loop, hp, if_true]

theorem length_fixtureCloud : fixtureCloud.length = 67108870 := by
  rw [fixtureCloud, List.length_replicate]

theorem fixtureCloud_eq_cons :
    fixtureCloud = ⟨0, 0, 0⟩ :: List.replicate 67108869 ⟨0, 0, 0⟩ := by
  rw [fixtureCloud]
  exact List.replicate_succ _ 67108869

theorem found_origin_cloud :
    found (restrictedClosest fixtureCloud) Mat4.identity ((1 / 100) * (1 / 100)) ⟨0, 0, 0⟩
      = true := by
  rw [found_eq_true_iff, restrictedClosest_foundIffWithin fixtureCloud,
    transformPoint_identity]
  refine ⟨⟨0, 0, 0⟩, ?_, ?_⟩
  · rw [fixtureCloud_eq_cons]
    exact List.mem_cons_self _ _
  · norm_num [sqDist]

/-- Counterexample to C1 as stated (every non-empty target): a target of `2^32`
copies of a reference point, `terminate_value = 0`.  All `m = n = 2^32` points
match, so `m / n = 1`, but the `unsigned int` counter wraps to 0 and the
returned score is 0. -/
theorem LCPMetric_full_scan_counterexample :
    0 < fixtureHuge.length ∧
      countFound fixtureIndex Mat4.identity ((1 / 100) * (1 / 100)) fixtureHuge
        = fixtureHuge.length ∧
      LCPMetric (1 / 100) fixtureIndex fixtureHuge Mat4.identity 0 = 0 ∧
      LCPMetric (1 / 100) fixtureIndex fixtureHuge Mat4.identity 0
        ≠ (countFound fixtureIndex Mat4.identity ((1 / 100) * (1 / 100)) fixtureHuge : Scalar)
          / (fixtureHuge.length : Scalar) := by
  have h0 : LCPMetric (1 / 100) fixtureIndex fixtureHuge Mat4.identity 0 = 0 := by
    rw [LCPMetric_zero_eq_mod, countFound_fixtureHuge]
    norm_num
  refine ⟨by rw [length_fixtureHuge]; norm_num,
    by rw [countFound_fixtureHuge, length_fixtureHuge], h0, ?_⟩
  rw [h0, countFound_fixtureHuge, length_fixtureHuge]
  norm_num

/-- C3, the code at the failing input: 67108870 target points that all match,
`terminate_value = 1`, `Scalar = float`.  The single-precision product
`terminate_value * number_of_points` is 67108872, so `terminate_int_value` is
`n + 2`.  With that bound the loop breaks right after the first, matching,
point (`n - 0 + 1 < n + 2`) and returns `1 / n`, although the full-scan score
is 1, which is not below `terminate_value`. -/
theorem LCPMetric_pruning_unsound_at_float_bound :
    LCPMetric.scanWith 67108872 (1 / 100) fixtureIndex fixtureCloud Mat4.identity
        = { good_points := 1, scanned := 1, stopped := true } ∧
      LCPMetric (1 / 100) fixtureIndex fixtureCloud Mat4.identity 0 = 1 ∧
      ¬ (LCPMetric (1 / 100) fixtureIndex fixtureCloud Mat4.identity 0 < 1) := by
  have h0 : LCPMetric (1 / 100) fixtureIndex fixtureCloud Mat4.identity 0 = 1 := by
    rw [LCPMetric_zero_eq_mod, fixtureCloud, countFound_replicate, found_origin_small,
      List.length_replicate]
    norm_num
  refine ⟨?_, h0, by rw [h0]; exact lt_irrefl 1⟩
  rw [LCPMetric.scanWith, length_fixtureCloud, fixtureCloud_eq_cons,
    LCPMetric.loop_cons_match _ _ _ _ _ _ found_origin_small, if_pos (by norm_num)]
  norm_num

/-- Counterexample to C4 as stated (every non-empty target): a target of `2^33`
points, `terminate_value = 1`.  The scan counts `2^32 - 1` matches, meets two
far points and breaks with score `(2^32 - 1) / 2^33`; the full scan finds one
more match, its `unsigned int` counter wraps to 0 and its score is 0. -/
theorem LCPMetric_le_full_scan_counterexample :
    (0 < fixtureWrap.length ∧ (0 : Scalar) ≤ 1 ∧ (1 : Scalar) ≤ 1) ∧
      LCPMetric (1 / 100) fixtureIndex fixtureWrap Mat4.identity 1
        = 4294967295 / 8589934592 ∧
      LCPMetric (1 / 100) fixtureIndex fixtureWrap Mat4.identity 0 = 0 ∧
      ¬ (LCPMetric (1 / 100) fixtureIndex fixtureWrap Mat4.identity 1
        ≤ LCPMetric (1 / 100) fixtureIndex fixtureWrap Mat4.identity 0) := by
  have h1 : LCPMetric (1 / 100) fixtureIndex fixtureWrap Mat4.identity 1
      = 4294967295 / 8589934592 := by
    rw [LCPMetric, scan_fixtureWrap_one, length_fixtureWrap]
    norm_num
  have h0 : LCPMetric (1 / 100) fixtureIndex fixtureWrap Mat4.identity 0 = 0 := by
    rw [LCPMetric_zero_eq_mod, countFound_fixtureWrap]
    norm_num
  refine ⟨⟨by rw [length_fixtureWrap]; norm_num, by norm_num, by norm_num⟩, h1, h0, ?_⟩
  rw [h1, h0]
  norm_num

/-- C4, amended: for every target of `1 ≤ n < 2^32` points and every
`terminate_value` in [0,1] the score returned by the sequential scorer is at
most the score of the full scan (`terminate_value = 0`) on the same inputs. -/
theorem LCPMetric_le_full_scan (epsilon_ : Scalar) (ref : KdTree) (target : List Point)
    (mat : Mat4) (terminate_value : Scalar) (_hne : 0 < target.length)
    (hlt : target.length < UINT_MOD) (_ht0 : 0 ≤ terminate_value) (_ht1 : terminate_value ≤ 1) :
    LCPMetric epsilon_ ref target mat terminate_value ≤ LCPMetric epsilon_ ref target mat 0 := by
  obtain ⟨hle, _, _⟩ := LCPMetric.scan_spec epsilon_ ref target mat terminate_value hlt
  rw [LCPMetric_zero_eq _ _ _ _ hlt, LCPMetric]
  have hc : ((LCPMetric.scan epsilon_ ref target mat terminate_value).good_points : Scalar)
      ≤ (countFound ref mat (epsilon_ * epsilon_) target : Scalar) := by exact_mod_cast hle
  exact div_le_div_of_nonneg_right hc (Nat.cast_nonneg _)

/-- Witness of amended C4: two far points followed by two reference points,
`terminate_value = 1`: the early-terminated score is 0, the full-scan score
is 1/2. -/
theorem LCPMetric_le_full_scan_witness :
    (0 < fixtureLate.length ∧ fixtureLate.length < UINT_MOD ∧
        (0 : Scalar) ≤ 1 ∧ (1 : Scalar) ≤ 1) ∧
      LCPMetric (1 / 100) fixtureIndex fixtureLate Mat4.identity 1 = 0 ∧
      LCPMetric (1 / 100) fixtureIndex fixtureLate Mat4.identity 0 = 1 / 2 ∧
      LCPMetric (1 / 100) fixtureIndex fixtureLate Mat4.identity 1
        ≤ LCPMetric (1 / 100) fixtureIndex fixtureLate Mat4.identity 0 := by
  have h1 : LCPMetric (1 / 100) fixtureIndex fixtureLate Mat4.identity 1 = 0 := by
    rw [LCPMetric, scan_fixtureLate_one]
    norm_num
  have h0 : LCPMetric (1 / 100) fixtureIndex fixtureLate Mat4.identity 0 = 1 / 2 := by
    rw [LCPMetric_zero_eq _ _ _ _ (by decide), countFound_fixtureLate]
    norm_num [fixtureLate]
  exact ⟨⟨by decide, by decide, by norm_num, by norm_num⟩, h1, h0,
    LCPMetric_le_full_scan (1 / 100) fixtureIndex fixtureLate Mat4.identity 1
      (by decide) (by decide) (by norm_num) (by norm_num)⟩

/-- C5, amended: for every value `T` of `terminate_int_value` (the `size_t` the
code obtains from `terminate_value * number_of_points`) and every target of
`1 ≤ n < 2^32` points, with `m` the number of matches of the full scan: the
sequential scorer takes the early-termination `break` if and only if
`m + 1 < T`; and whenever `m + 2 < T` and `n ≥ 2` it takes the `break` before
all `n` points have been queried. -/
theorem LCPMetric_break_iff (T : Nat) (epsilon_ : Scalar) (ref : KdTree) (target : List Point)
    (mat : Mat4) (hne : 0 < target.length) (hlt : target.length < UINT_MOD) :
    ((LCPMetric.scanWith T epsilon_ ref target mat).stopped = true ↔
        countFound ref mat (epsilon_ * epsilon_) target + 1 < T) ∧
      (countFound ref mat (epsilon_ * epsilon_) target + 2 < T → 2 ≤ target.length →
        (LCPMetric.scanWith T epsilon_ ref target mat).stopped = true ∧
          (LCPMetric.scanWith T epsilon_ ref target mat).scanned < target.length) := by
  obtain ⟨_, _, _, _, _, _, h7⟩ :=
    LCPMetric.loop_spec ref mat (epsilon_ * epsilon_) target.length T hlt target 0 0
      (by simp) (le_refl _)
  simp only [Nat.zero_add] at h7
  have hnil : target ≠ [] := by
    intro h
    rw [h] at hne
    exact absurd hne (by simp)
  have hiff : (LCPMetric.scanWith T epsilon_ ref target mat).stopped = true ↔
      countFound ref mat (epsilon_ * epsilon_) target + 1 < T := by
    rw [LCPMetric.scanWith, h7]
    exact ⟨fun h => h.2, fun h => ⟨hnil, h⟩⟩
  refine ⟨hiff, ?_⟩
  intro hm h2
  exact ⟨hiff.mpr (by omega),
    LCPMetric.loop_early_any ref mat (epsilon_ * epsilon_) target.length T hlt h2 target 0 0
      (by simp) (le_refl _) (Or.inl rfl) (by omega)⟩

/-- Witness of amended C5: ten target points, five far points first, then five
matches (`m = 5`).  With `T = 7`, the value single precision gives for
`0.7 * 10`, the scan breaks after five points; with `T = 6` it does not break. -/
theorem LCPMetric_break_iff_witness :
    (0 < fixtureTen.length ∧ fixtureTen.length < UINT_MOD) ∧
      countFound fixtureIndex Mat4.identity ((1 / 100) * (1 / 100)) fixtureTen = 5 ∧
      (LCPMetric.scanWith 7 (1 / 100) fixtureIndex fixtureTen Mat4.identity).stopped = true ∧
      (LCPMetric.scanWith 7 (1 / 100) fixtureIndex fixtureTen Mat4.identity).scanned = 5 ∧
      (LCPMetric.scanWith 6 (1 / 100) fixtureIndex fixtureTen Mat4.identity).stopped = false := by
  have h7 := LCPMetric_break_iff 7 (1 / 100) fixtureIndex fixtureTen Mat4.identity
    (by decide) (by decide)
  have h6 := LCPMetric_break_iff 6 (1 / 100) fixtureIndex fixtureTen Mat4.identity
    (by decide) (by decide)
  refine ⟨⟨by decide, by decide⟩, countFound_fixtureTen,
    h7.1.mpr (by rw [countFound_fixtureTen]; decide), by rw [scanWith_fixtureTen_seven], ?_⟩
  cases hs : (LCPMetric.scanWith 6 (1 / 100) fixtureIndex fixtureTen Mat4.identity).stopped
  · rfl
  · have := h6.1.mp hs
    rw [countFound_fixtureTen] at this
    exact absurd this (by decide)

/-- C6, amended: for every value `T` of `terminate_int_value` (the `size_t` the
code obtains from `terminate_value * number_of_points`) and every target of
`1 ≤ n < 2^32` points, the sequential scorer stops scanning right after the
point of 0-based index `i` exactly when `n - i + goodCount < T` holds at `i`
and at no earlier index, where `goodCount` is the number of matches among the
points `0..i`. -/
theorem LCPMetric_stops_after_iff (T : Nat) (epsilon_ : Scalar) (ref : KdTree)
    (target : List Point) (mat : Mat4) (i : Nat) (_hne : 0 < target.length)
    (hlt : target.length < UINT_MOD) :
    StopsAfter (LCPMetric.scanWith T epsilon_ ref target mat) i ↔
      (i < target.length ∧
        target.length - i + goodAfter ref mat (epsilon_ * epsilon_) target i < T ∧
        ∀ j : Nat, j < i →
          ¬ (target.length - j + goodAfter ref mat (epsilon_ * epsilon_) target j < T)) := by
  have h := LCPMetric.loop_stopsAfter ref mat (epsilon_ * epsilon_) target T hlt target []
    (by simp) i
  simp only [List.length_nil, countFound, List.countP_nil, Nat.zero_le, true_and,
    forall_const] at h
  simp only [LCPMetric.scanWith, countFound]
  exact h

/-- Witness of amended C6: the ten-point target with `T = 7`: the scan stops
right after index 4, where `10 - 4 + 0 = 6 < 7` holds for the first time. -/
theorem LCPMetric_stops_after_iff_witness :
    (0 < fixtureTen.length ∧ fixtureTen.length < UINT_MOD) ∧
      StopsAfter (LCPMetric.scanWith 7 (1 / 100) fixtureIndex fixtureTen Mat4.identity) 4 ∧
      (4 < fixtureTen.length ∧
        fixtureTen.length - 4
            + goodAfter fixtureIndex Mat4.identity ((1 / 100) * (1 / 100)) fixtureTen 4 < 7 ∧
        ∀ j : Nat, j < 4 →
          ¬ (fixtureTen.length - j
              + goodAfter fixtureIndex Mat4.identity ((1 / 100) * (1 / 100)) fixtureTen j
            < 7)) := by
  have hs : StopsAfter
      (LCPMetric.scanWith 7 (1 / 100) fixtureIndex fixtureTen Mat4.identity) 4 := by
    rw [scanWith_fixtureTen_seven]
    exact ⟨rfl, rfl⟩
  exact ⟨⟨by decide, by decide⟩, hs,
    (LCPMetric_stops_after_iff 7 (1 / 100) fixtureIndex fixtureTen Mat4.identity 4
      (by decide) (by decide)).mp hs⟩

/-- C8: for an index whose matches lie within the query radius (squared distance
at most `epsilon^2`), a non-empty target, `epsilon > 0` and `terminate_value` in
[0,1], the weighted scorer returns (its assertion never fails) and the result
lies in [0,1].  Of `std::sqrt` only this is used: it maps a matched squared
distance into `[0, epsilon]`. -/
theorem WeightedLCPMetric_range (NDEBUG : Bool) (sqrtS : Scalar → Scalar) (epsilon_ : Scalar)
    (ref : KdTree) (target : List Point) (mat : Mat4) (terminate_value : Scalar)
    (hne : 0 < target.length) (heps : 0 < epsilon_)
    (_ht0 : 0 ≤ terminate_value) (_ht1 : terminate_value ≤ 1)
    (hradius : WithinRadiusOn ref mat (epsilon_ * epsilon_) target)
    (hsqrt : SqrtWithinOn sqrtS epsilon_ ref mat (epsilon_ * epsilon_) target) :
    ∃ w : Scalar,
      WeightedLCPMetric NDEBUG sqrtS epsilon_ ref target mat terminate_value = some w ∧
        0 ≤ w ∧ w ≤ 1 := by
  have hn : (0 : Scalar) < (target.length : Scalar) := by exact_mod_cast hne
  obtain ⟨s, hs, hs0, hs1, hs2⟩ :=
    WeightedLCPMetric.weighted_loop_range NDEBUG sqrtS ref mat epsilon_ (epsilon_ * epsilon_)
      target.length (terminateIntValue terminate_value target.length) target 0 0
      (fun p hp hf =>
        ⟨hradius p hp hf,
          computeWeight_range_of_le sqrtS _ epsilon_ heps (hsqrt p hp hf).1 (hsqrt p hp hf).2⟩)
      (le_refl _) (by simp)
  refine ⟨s.good_points / (target.length : Scalar), ?_, div_nonneg hs0 (le_of_lt hn), ?_⟩
  · simp only [WeightedLCPMetric, WeightedLCPMetric.scan, hs, Option.map_some']
  · rw [div_le_one hn]
    have h : (s.scanned : Scalar) ≤ (target.length : Scalar) := by
      exact_mod_cast (by omega : s.scanned ≤ target.length)
    exact le_trans hs1 h

/-- Witness of C8: reference = the four fixture points, target = (1/2,1/2,0) at
squared distance 1/2 from its nearest reference points, `epsilon = 1`,
`terminate_value = 1/2`, a square root rounded to 7/10, debug build. -/
theorem WeightedLCPMetric_range_witness :
    (0 < fixtureHalf.length ∧ (0 : Scalar) < 1 ∧ (0 : Scalar) ≤ 1 / 2 ∧ (1 / 2 : Scalar) ≤ 1 ∧
        WithinRadiusOn fixtureIndex Mat4.identity (1 * 1) fixtureHalf ∧
        SqrtWithinOn fixtureSqrtRounded 1 fixtureIndex Mat4.identity (1 * 1) fixtureHalf) ∧
      ∃ w : Scalar,
        WeightedLCPMetric false fixtureSqrtRounded 1 fixtureIndex fixtureHalf Mat4.identity
            (1 / 2) = some w ∧ 0 ≤ w ∧ w ≤ 1 :=
  ⟨⟨by decide, by norm_num, by norm_num, by norm_num, withinRadiusOn_fixtureHalf,
      sqrtWithinOn_fixtureHalf⟩,
    WeightedLCPMetric_range false fixtureSqrtRounded 1 fixtureIndex fixtureHalf Mat4.identity
      (1 / 2) (by decide) (by norm_num) (by norm_num) (by norm_num) withinRadiusOn_fixtureHalf
      sqrtWithinOn_fixtureHalf⟩

/-- Counterexample to C9 as stated (every non-empty target): a target of `2^32`
points, one reference point and `2^32 - 1` points at squared distance 1/4 from
the reference, `terminate_value = 0`.  With `epsilon_ = 1/100` one point
matches and the score is `1 / 2^32`; with `epsilon_ = 1` all `2^32` points
match, the `unsigned int` counter wraps to 0 and the score is 0. -/
theorem LCPMetric_mono_epsilon_counterexample :
    (0 < fixtureHugeNear.length ∧ (0 : Scalar) ≤ 1 / 100 ∧ (1 / 100 : Scalar) ≤ 1 ∧
        FoundIffWithin fixtureIndex fixturePoints) ∧
      LCPMetric (1 / 100) fixtureIndex fixtureHugeNear Mat4.identity 0 = 1 / 4294967296 ∧
      LCPMetric 1 fixtureIndex fixtureHugeNear Mat4.identity 0 = 0 ∧
      ¬ (LCPMetric (1 / 100) fixtureIndex fixtureHugeNear Mat4.identity 0
        ≤ LCPMetric 1 fixtureIndex fixtureHugeNear Mat4.identity 0) := by
  have h1 : LCPMetric (1 / 100) fixtureIndex fixtureHugeNear Mat4.identity 0
      = 1 / 4294967296 := by
    rw [LCPMetric_zero_eq_mod, countFound_fixtureHugeNear_small, length_fixtureHugeNear]
    norm_num
  have h2 : LCPMetric 1 fixtureIndex fixtureHugeNear Mat4.identity 0 = 0 := by
    rw [LCPMetric_zero_eq_mod, countFound_fixtureHugeNear_one]
    norm_num
  refine ⟨⟨by rw [length_fixtureHugeNear]; norm_num, by norm_num, by norm_num,
    restrictedClosest_foundIffWithin fixturePoints⟩, h1, h2, ?_⟩
  rw [h1, h2]
  norm_num

/-- C10, the code at the failing input: a point set `P` of 67108870 points used
as the reference (behind the exhaustive-search index) and as the target,
identity transform, `epsilon = 0.01`, `terminate_value = 1`, `Scalar = float`.
The single-precision product `terminate_value * number_of_points` is 67108872,
so `terminate_int_value` is `n + 2`; the loop breaks right after the first
point and the returned score is `1 / 67108870`, not 1. -/
theorem identity_identical_at_float_bound :
    LCPMetric.scanWith 67108872 (1 / 100) (restrictedClosest fixtureCloud) fixtureCloud
        Mat4.identity
        = { good_points := 1, scanned := 1, stopped := true } ∧
      ((LCPMetric.scanWith 67108872 (1 / 100) (restrictedClosest fixtureCloud) fixtureCloud
          Mat4.identity).good_points : Scalar) / (fixtureCloud.length : Scalar)
        = 1 / 67108870 ∧
      ((LCPMetric.scanWith 67108872 (1 / 100) (restrictedClosest fixtureCloud) fixtureCloud
          Mat4.identity).good_points : Scalar) / (fixtureCloud.length : Scalar) ≠ 1 := by
  have hs : LCPMetric.scanWith 67108872 (1 / 100) (restrictedClosest fixtureCloud)
      fixtureCloud Mat4.identity = { good_points := 1, scanned := 1, stopped := true } := by
    rw [LCPMetric.scanWith, length_fixtureCloud]
    conv_lhs => arg 6; rw [fixtureCloud_eq_cons]
    rw [LCPMetric.loop_cons_match _ _ _ _ _ _ found_origin_cloud, if_pos (by norm_num)]
    norm_num
  refine ⟨hs, ?_, ?_⟩
  · rw [hs, length_fixtureCloud]
    norm_num
  · rw [hs, length_fixtureCloud]
    norm_num

end Utils
end gr
